import Mathlib

/-!
Verification development for the fe_daq field-emission DAQ control code.

The definitions below are a shallow embedding of the Python sources:
  * `state_monitor.py` — the StateMonitor safety aggregator and its EPICS
    callbacks (`connection_cb`, `rf_on_cb`);
  * `fe_daq/cavity.py` — gradient validation, setting, walking and the
    parallel batch update orchestration;
  * `fe_daq/linac.py` — the zone aggregate-heat check;
  * `fe_daq/utils.py` — the `Status` enum and the operator prompts.

Python floats are embedded as exact rationals (`ℚ`); Python dictionaries as
association lists preserving insertion order; unbounded polling loops take an
explicit fuel argument, and external signal readings are collapsed into an
environment record holding the outcome each poll loop would observe.
Exceptions become an explicit error type, and side effects (EPICS caputs,
operator prompts) are collected into a trace list.
-/

deriving instance DecidableEq for Except

namespace FeDaq

/-- Python exception kinds raised by the embedded code.  `userScanAbort` is the
distinguished abort exception (class `UserScanAbort` from `fe_daq.exceptions`,
re-raised untouched by every handler).  `fuelOut` is a model artifact marking
exhaustion of the explicit fuel of an unbounded source loop; no theorem below
relies on the `fuelOut` behaviour of a loop. -/
inductive PyErr
  | valueError
  | runtimeError
  | keyError
  | zeroDivision
  | userScanAbort
  | fuelOut
deriving DecidableEq, Repr

/-- Observable side effects of the embedded cavity code: a caput to the GSET
setpoint PV, or an operator prompt (a blocking `input()` / GUI dialog). -/
inductive Effect
  | putGset (v : ℚ)
  | prompt
deriving DecidableEq, Repr

/-- The `Status` enum of `fe_daq/utils.py` (lines 112-123). -/
inductive Status
  | SUCCESS
  | RETRY
  | FAIL
  | ABORT
  | UNKNOWN
deriving DecidableEq, Repr

/-! ### Association lists standing in for Python dictionaries -/

/-- `d[k] = v` on an insertion-ordered dictionary: replace the value at the
first occurrence of `k`, else append the new binding. -/
def setA {β : Type} (k : String) (v : β) : List (String × β) → List (String × β)
  | [] => [(k, v)]
  | p :: rest => if p.1 = k then (k, v) :: rest else p :: setA k v rest

/-- Dictionary lookup: the value at the first occurrence of `k`. -/
def lookupA {β : Type} (k : String) : List (String × β) → Option β
  | [] => none
  | p :: rest => if p.1 = k then some p.2 else lookupA k rest

/-- `del d[k]`: remove the first binding of `k`. -/
def removeA {β : Type} (k : String) : List (String × β) → List (String × β)
  | [] => []
  | p :: rest => if p.1 = k then rest else p :: removeA k rest

/-- The keys of an association list, in order. -/
def keysA {β : Type} (m : List (String × β)) : List String := m.map Prod.fst

theorem lookupA_setA_self {β : Type} (k : String) (v : β) (m : List (String × β)) :
    lookupA k (setA k v m) = some v := by
  induction m with
  | nil => simp [setA, lookupA]
  | cons p rest ih =>
    by_cases h : p.1 = k
    · simp [setA, h, lookupA]
    · simp [setA, h, lookupA, ih]

theorem lookupA_setA_ne {β : Type} (k k' : String) (v : β) (m : List (String × β))
    (h : k' ≠ k) : lookupA k (setA k' v m) = lookupA k m := by
  induction m with
  | nil => simp [setA, lookupA, h]
  | cons p rest ih =>
    by_cases hp : p.1 = k'
    · have hpk : p.1 ≠ k := by rw [hp]; exact h
      simp only [setA, if_pos hp, lookupA, if_neg h, if_neg hpk]
    · by_cases hk : p.1 = k
      · simp only [setA, if_neg hp, lookupA, if_pos hk]
      · simp only [setA, if_neg hp, lookupA, if_neg hk, ih]

theorem mem_keysA_setA {β : Type} (x k : String) (v : β) (m : List (String × β)) :
    x ∈ keysA (setA k v m) ↔ x ∈ keysA m ∨ x = k := by
  induction m with
  | nil => simp [setA, keysA]
  | cons p rest ih =>
    simp only [keysA] at ih ⊢
    have hset : setA k v (p :: rest) =
        if p.1 = k then (k, v) :: rest else p :: setA k v rest := rfl
    by_cases h : p.1 = k
    · rw [hset, if_pos h]
      simp only [List.map_cons, List.mem_cons]
      rw [h]
      tauto
    · rw [hset, if_neg h]
      simp only [List.map_cons, List.mem_cons, ih]
      tauto

theorem nodup_keysA_setA {β : Type} (k : String) (v : β) (m : List (String × β))
    (h : (keysA m).Nodup) : (keysA (setA k v m)).Nodup := by
  induction m with
  | nil => simp [setA, keysA]
  | cons p rest ih =>
    simp only [keysA, List.map_cons, List.nodup_cons] at h
    by_cases hp : p.1 = k
    · simp only [setA, if_pos hp, keysA, List.map_cons, List.nodup_cons]
      exact ⟨by rw [← hp]; exact h.1, h.2⟩
    · simp only [setA, if_neg hp, keysA, List.map_cons, List.nodup_cons]
      refine ⟨?_, ih h.2⟩
      intro hmem
      rcases (mem_keysA_setA p.1 k v rest).mp (by simpa [keysA] using hmem) with hx | hx
      · exact h.1 (by simpa [keysA] using hx)
      · exact hp hx

theorem lookupA_of_mem_nodup {β : Type} (k : String) (v : β) (m : List (String × β))
    (hnd : (keysA m).Nodup) (hmem : (k, v) ∈ m) : lookupA k m = some v := by
  induction m with
  | nil => simp at hmem
  | cons p rest ih =>
    simp only [keysA, List.map_cons, List.nodup_cons] at hnd
    rcases List.mem_cons.mp hmem with hm | hm
    · simp [lookupA, ← hm]
    · have hk : p.1 ≠ k := by
        intro hpk
        exact hnd.1 (by
          rw [hpk]
          exact List.mem_map_of_mem Prod.fst hm)
      simp [lookupA, hk, ih hnd.2 hm]

/-! ### StateMonitor (src/src/state_monitor.py)

The class-level dictionaries of `StateMonitor` together with the module-level
`has_connected` / `first_rf_on` arrays, folded into one state record.  All
locking is elided: the mutex serialises the updates, so the sequential
semantics below is the per-event semantics of the Python code. -/

structure SMState where
  has_connected : List String
  pv_connected : List (String × Bool)
  first_rf_on : List String
  rf_on : List (String × Bool)
  hv_bad : List (String × Bool)
  threshold_exceeded : List (String × (ℚ × ℚ × String))
deriving DecidableEq, Repr

/-- The freshly cleared state (`StateMonitor.clear_state`). -/
def SMState.init : SMState := ⟨[], [], [], [], [], []⟩

/-- `StateMonitor.pv_disconnected` (line 177). -/
def pv_disconnected (s : SMState) (pvname : String) : SMState :=
  { s with pv_connected := setA pvname false s.pv_connected }

/-- `StateMonitor.pv_reconnected` (line 183). -/
def pv_reconnected (s : SMState) (pvname : String) : SMState :=
  { s with pv_connected := setA pvname true s.pv_connected }

/-- `StateMonitor.rf_turned_off` (line 229). -/
def rf_turned_off (s : SMState) (pvname : String) : SMState :=
  { s with rf_on := setA pvname false s.rf_on }

/-- `StateMonitor.rf_turned_on` (line 235). -/
def rf_turned_on (s : SMState) (pvname : String) : SMState :=
  { s with rf_on := setA pvname true s.rf_on }

/-- `StateMonitor.hv_has_problem` (line 189). -/
def hv_has_problem (s : SMState) (pvname : String) : SMState :=
  { s with hv_bad := setA pvname true s.hv_bad }

/-- `StateMonitor.hv_good` (line 195). -/
def hv_good (s : SMState) (pvname : String) : SMState :=
  { s with hv_bad := setA pvname false s.hv_bad }

/-- `StateMonitor.threshold_exceeded` (line 163). -/
def threshold_exceeded_rec (s : SMState) (pvname : String) (threshold value : ℚ)
    (kind : String) : SMState :=
  { s with threshold_exceeded := setA pvname (threshold, value, kind) s.threshold_exceeded }

/-- `StateMonitor.threshold_recovered` (line 169): deletes the entry when present. -/
def threshold_recovered (s : SMState) (pvname : String) : SMState :=
  if 0 < s.threshold_exceeded.length ∧ pvname ∈ keysA s.threshold_exceeded then
    { s with threshold_exceeded := removeA pvname s.threshold_exceeded }
  else s

/-- `StateMonitor.__get_disconnected_pv_count` (line 201): the number of
entries of `__pv_connected` whose value is falsy. -/
def get_disconnected_pv_count (s : SMState) : Nat :=
  (s.pv_connected.filter (fun p => !p.2)).length

/-- `StateMonitor.__get_rf_off_count` (line 209). -/
def get_rf_off_count (s : SMState) : Nat :=
  (s.rf_on.filter (fun p => !p.2)).length

/-- `StateMonitor.__get_hv_bad_count` (line 217). -/
def get_hv_bad_count (s : SMState) : Nat :=
  (s.hv_bad.filter (fun p => p.2)).length

/-- `StateMonitor.__get_threshold_exceeded_count` (line 225). -/
def get_threshold_exceeded_count (s : SMState) : Nat :=
  s.threshold_exceeded.length

/-- `StateMonitor.daq_good` / `__daq_good` (lines 240-253). -/
def daq_good (s : SMState) : Bool :=
  get_rf_off_count s == 0 && get_disconnected_pv_count s == 0 &&
    get_hv_bad_count s == 0 && get_threshold_exceeded_count s == 0

/-- `StateMonitor.check_state` (lines 277-347): when the state is bad it
raises internally, then either prompts (`user_input = true`, continuing only
on a `y` answer) or re-raises directly.  `user_yes` is the operator's answer
when prompted. -/
def check_state (s : SMState) (user_input user_yes : Bool) :
    List Effect × Except PyErr Unit :=
  if daq_good s then ([], Except.ok ())
  else if user_input then
    ([Effect.prompt], if user_yes then Except.ok () else Except.error PyErr.runtimeError)
  else ([], Except.error PyErr.runtimeError)

/-- `connection_cb` (state_monitor.py lines 17-37): on `conn = true`, a PV
seen for the first time is only appended to `has_connected`; only later
connects call `pv_reconnected`.  On `conn = false`, `pv_disconnected`. -/
def connection_cb (s : SMState) (pvname : String) (conn : Bool) : SMState :=
  if conn then
    if pvname ∈ s.has_connected then pv_reconnected s pvname
    else { s with has_connected := s.has_connected ++ [pvname] }
  else pv_disconnected s pvname

/-- `rf_on_cb` (state_monitor.py lines 83-98): on `value == 1`, a PV seen on
for the first time is only appended to `first_rf_on`; only later on-events
call `rf_turned_on`.  Otherwise `rf_turned_off`. -/
def rf_on_cb (s : SMState) (pvname : String) (value : ℚ) : SMState :=
  if value = 1 then
    if pvname ∈ s.first_rf_on then rf_turned_on s pvname
    else { s with first_rf_on := s.first_rf_on ++ [pvname] }
  else rf_turned_off s pvname

/-- A connection-change or RF-state callback delivery. -/
inductive SMEvent
  | conn (pvname : String) (connected : Bool)
  | rf (pvname : String) (value : ℚ)
deriving DecidableEq, Repr

/-- Dispatch one callback delivery. -/
def smStep (s : SMState) (e : SMEvent) : SMState :=
  match e with
  | SMEvent.conn n c => connection_cb s n c
  | SMEvent.rf n v => rf_on_cb s n v

/-- Run a finite interleaving of callback deliveries from the cleared state. -/
def smRun (es : List SMEvent) : SMState :=
  es.foldl smStep SMState.init

/-- C1: `daq_good` is true exactly when no PV is recorded disconnected, no
cavity is recorded with RF off, no detector is recorded with bad high
voltage, and no threshold violation is recorded. -/
theorem C1_daq_good_iff (s : SMState) :
    daq_good s = true ↔
      ((∀ p ∈ s.pv_connected, p.2 = true) ∧ (∀ p ∈ s.rf_on, p.2 = true) ∧
        (∀ p ∈ s.hv_bad, p.2 = false) ∧ s.threshold_exceeded = []) := by
  simp only [daq_good, get_rf_off_count, get_disconnected_pv_count, get_hv_bad_count,
    get_threshold_exceeded_count, Bool.and_eq_true, beq_iff_eq, List.length_eq_zero,
    List.filter_eq_nil_iff]
  constructor
  · rintro ⟨⟨⟨hrf, hpv⟩, hhv⟩, hth⟩
    refine ⟨?_, ?_, ?_, hth⟩
    · intro p hp
      have := hpv p hp
      simpa using this
    · intro p hp
      have := hrf p hp
      simpa using this
    · intro p hp
      have := hhv p hp
      simpa using this
  · rintro ⟨hpv, hrf, hhv, hth⟩
    refine ⟨⟨⟨?_, ?_⟩, ?_⟩, hth⟩
    · intro p hp; simp [hrf p hp]
    · intro p hp; simp [hpv p hp]
    · intro p hp; simp [hhv p hp]

/-! ### Traces of callback deliveries (claim C7)

`connBools n es` is the sequence of `conn` flags delivered for signal `n`,
`rfOns n es` the sequence of "value is 1" flags delivered for cavity `n`. -/

/-- Connection flags delivered for one signal, in order. -/
def connBools (n : String) (es : List SMEvent) : List Bool :=
  es.filterMap (fun e =>
    match e with
    | SMEvent.conn m c => if m = n then some c else none
    | SMEvent.rf _ _ => none)

/-- RF-on flags (`value == 1`) delivered for one cavity, in order. -/
def rfOns (n : String) (es : List SMEvent) : List Bool :=
  es.filterMap (fun e =>
    match e with
    | SMEvent.rf m v => if m = n then some (decide (v = 1)) else none
    | SMEvent.conn _ _ => none)

/-- The signal names occurring in a trace. -/
def eventNames : List SMEvent → List String :=
  List.map (fun e =>
    match e with
    | SMEvent.conn n _ => n
    | SMEvent.rf n _ => n)

/-- The per-signal dynamics shared by `connection_cb` and `rf_on_cb`: the
state is (already seen a good event, recorded dictionary value).  A good
event only writes when the signal was seen good before; a bad event always
writes a violation. -/
def flagStep : Bool × Option Bool → Bool → Bool × Option Bool
  | (seen, v), true => if seen then (seen, some true) else (true, v)
  | (seen, _), false => (seen, some false)

/-- Projection of the monitor state onto one signal's connection bookkeeping. -/
def projConn (n : String) (s : SMState) : Bool × Option Bool :=
  (decide (n ∈ s.has_connected), lookupA n s.pv_connected)

/-- Projection of the monitor state onto one cavity's RF bookkeeping. -/
def projRf (n : String) (s : SMState) : Bool × Option Bool :=
  (decide (n ∈ s.first_rf_on), lookupA n s.rf_on)

theorem projConn_conn (s : SMState) (m : String) (c : Bool) (n : String) :
    projConn n (smStep s (SMEvent.conn m c)) =
      if m = n then flagStep (projConn n s) c else projConn n s := by
  by_cases hmn : m = n
  · subst hmn
    cases c with
    | true =>
      by_cases hm : m ∈ s.has_connected
      · simp [smStep, connection_cb, hm, pv_reconnected, projConn, flagStep,
          lookupA_setA_self]
      · simp [smStep, connection_cb, hm, projConn, flagStep]
    | false =>
      by_cases hm : m ∈ s.has_connected <;>
        simp [smStep, connection_cb, hm, pv_disconnected, projConn, flagStep,
          lookupA_setA_self]
  · cases c with
    | true =>
      by_cases hm : m ∈ s.has_connected
      · simp [smStep, connection_cb, hm, pv_reconnected, projConn,
          lookupA_setA_ne _ _ _ _ hmn, hmn]
      · simp [smStep, connection_cb, hm, projConn, hmn, Ne.symm hmn]
    | false =>
      simp [smStep, connection_cb, pv_disconnected, projConn,
        lookupA_setA_ne _ _ _ _ hmn, hmn]

theorem projConn_rf (s : SMState) (m : String) (v : ℚ) (n : String) :
    projConn n (smStep s (SMEvent.rf m v)) = projConn n s := by
  by_cases hv : v = 1 <;> by_cases hm : m ∈ s.first_rf_on <;>
    simp [smStep, rf_on_cb, hv, hm, rf_turned_on, rf_turned_off, projConn]

theorem projRf_rf (s : SMState) (m : String) (v : ℚ) (n : String) :
    projRf n (smStep s (SMEvent.rf m v)) =
      if m = n then flagStep (projRf n s) (decide (v = 1)) else projRf n s := by
  by_cases hmn : m = n
  · subst hmn
    by_cases hv : v = 1
    · by_cases hm : m ∈ s.first_rf_on
      · simp [smStep, rf_on_cb, hv, hm, rf_turned_on, projRf, flagStep,
          lookupA_setA_self]
      · simp [smStep, rf_on_cb, hv, hm, projRf, flagStep]
    · by_cases hm : m ∈ s.first_rf_on <;>
        simp [smStep, rf_on_cb, hv, hm, rf_turned_off, projRf, flagStep,
          lookupA_setA_self]
  · by_cases hv : v = 1
    · by_cases hm : m ∈ s.first_rf_on
      · simp [smStep, rf_on_cb, hv, hm, rf_turned_on, projRf,
          lookupA_setA_ne _ _ _ _ hmn, hmn]
      · simp [smStep, rf_on_cb, hv, hm, projRf, hmn, Ne.symm hmn]
    · simp [smStep, rf_on_cb, hv, rf_turned_off, projRf,
        lookupA_setA_ne _ _ _ _ hmn, hmn]

theorem projRf_conn (s : SMState) (m : String) (c : Bool) (n : String) :
    projRf n (smStep s (SMEvent.conn m c)) = projRf n s := by
  cases c with
  | true =>
    by_cases hm : m ∈ s.has_connected <;>
      simp [smStep, connection_cb, hm, pv_reconnected, projRf]
  | false => simp [smStep, connection_cb, pv_disconnected, projRf]

theorem projConn_foldl (es : List SMEvent) (s : SMState) (n : String) :
    projConn n (es.foldl smStep s) =
      List.foldl flagStep (projConn n s) (connBools n es) := by
  induction es generalizing s with
  | nil => rfl
  | cons e rest ih =>
    rw [List.foldl_cons, ih]
    cases e with
    | conn m c =>
      by_cases hm : m = n
      · rw [projConn_conn, if_pos hm]
        simp [connBools, List.filterMap_cons, hm]
      · rw [projConn_conn, if_neg hm]
        simp [connBools, List.filterMap_cons, hm]
    | rf m v =>
      rw [projConn_rf]
      simp [connBools, List.filterMap_cons]

theorem projRf_foldl (es : List SMEvent) (s : SMState) (n : String) :
    projRf n (es.foldl smStep s) =
      List.foldl flagStep (projRf n s) (rfOns n es) := by
  induction es generalizing s with
  | nil => rfl
  | cons e rest ih =>
    rw [List.foldl_cons, ih]
    cases e with
    | rf m v =>
      by_cases hm : m = n
      · rw [projRf_rf, if_pos hm]
        simp [rfOns, List.filterMap_cons, hm]
      · rw [projRf_rf, if_neg hm]
        simp [rfOns, List.filterMap_cons, hm]
    | conn m c =>
      rw [projRf_conn]
      simp [rfOns, List.filterMap_cons]

theorem flagStep_foldl_some_true (bs : List Bool) :
    ∀ (seen : Bool) (v : Option Bool), (seen = true ∨ true ∈ bs.dropLast) →
      bs.getLast? = some true →
      (List.foldl flagStep (seen, v) bs).2 = some true := by
  induction bs with
  | nil => intro seen v _ hl; simp at hl
  | cons b rest ih =>
    intro seen v h hl
    cases rest with
    | nil =>
      have hb : b = true := by
        have : some b = some true := by simpa [List.getLast?] using hl
        exact Option.some.inj this
      have hseen : seen = true := by
        rcases h with h | h
        · exact h
        · simp [List.dropLast] at h
      subst hb; subst hseen
      simp [flagStep]
    | cons c rest2 =>
      rw [List.foldl_cons]
      have hl' : (c :: rest2).getLast? = some true := by
        simpa [List.getLast?_cons_cons] using hl
      have hdl : (b :: c :: rest2).dropLast = b :: (c :: rest2).dropLast := rfl
      have hseen' : (flagStep (seen, v) b).1 = true ∨ true ∈ (c :: rest2).dropLast := by
        rcases h with h | h
        · left
          cases b <;> simp [flagStep, h]
        · rw [hdl, List.mem_cons] at h
          rcases h with h | h
          · left
            rw [← h]
            cases seen <;> simp [flagStep]
          · right; exact h
      exact ih (flagStep (seen, v) b).1 (flagStep (seen, v) b).2 hseen' hl'

theorem smStep_hv_bad (s : SMState) (e : SMEvent) : (smStep s e).hv_bad = s.hv_bad := by
  cases e with
  | conn m c =>
    cases c with
    | true =>
      by_cases hm : m ∈ s.has_connected <;>
        simp [smStep, connection_cb, hm, pv_reconnected]
    | false => simp [smStep, connection_cb, pv_disconnected]
  | rf m v =>
    by_cases hv : v = 1
    · by_cases hm : m ∈ s.first_rf_on <;>
        simp [smStep, rf_on_cb, hv, hm, rf_turned_on]
    · simp [smStep, rf_on_cb, hv, rf_turned_off]

theorem smStep_threshold (s : SMState) (e : SMEvent) :
    (smStep s e).threshold_exceeded = s.threshold_exceeded := by
  cases e with
  | conn m c =>
    cases c with
    | true =>
      by_cases hm : m ∈ s.has_connected <;>
        simp [smStep, connection_cb, hm, pv_reconnected]
    | false => simp [smStep, connection_cb, pv_disconnected]
  | rf m v =>
    by_cases hv : v = 1
    · by_cases hm : m ∈ s.first_rf_on <;>
        simp [smStep, rf_on_cb, hv, hm, rf_turned_on]
    · simp [smStep, rf_on_cb, hv, rf_turned_off]

theorem foldl_smStep_hv_bad (es : List SMEvent) :
    ∀ s : SMState, (es.foldl smStep s).hv_bad = s.hv_bad := by
  induction es with
  | nil => intro s; rfl
  | cons e rest ih =>
    intro s
    rw [List.foldl_cons, ih, smStep_hv_bad]

theorem foldl_smStep_threshold (es : List SMEvent) :
    ∀ s : SMState, (es.foldl smStep s).threshold_exceeded = s.threshold_exceeded := by
  induction es with
  | nil => intro s; rfl
  | cons e rest ih =>
    intro s
    rw [List.foldl_cons, ih, smStep_threshold]

theorem keys_pv_smStep (s : SMState) (e : SMEvent) (k : String)
    (h : k ∈ keysA (smStep s e).pv_connected) :
    k ∈ keysA s.pv_connected ∨ (∃ c, e = SMEvent.conn k c) := by
  cases e with
  | conn m c =>
    cases c with
    | true =>
      by_cases hm : m ∈ s.has_connected
      · simp only [smStep, connection_cb, if_pos rfl, hm, if_true, pv_reconnected] at h
        rcases (mem_keysA_setA k m true s.pv_connected).mp h with h' | h'
        · exact Or.inl h'
        · exact Or.inr ⟨true, by rw [h']⟩
      · simp only [smStep, connection_cb, hm, pv_reconnected] at h
        left
        simpa using h
    | false =>
      simp only [smStep, connection_cb, pv_disconnected] at h
      rcases (mem_keysA_setA k m false s.pv_connected).mp (by simpa using h) with h' | h'
      · exact Or.inl h'
      · exact Or.inr ⟨false, by rw [h']⟩
  | rf m v =>
    left
    by_cases hv : v = 1
    · by_cases hm : m ∈ s.first_rf_on <;>
        simpa [smStep, rf_on_cb, hv, hm, rf_turned_on] using h
    · simpa [smStep, rf_on_cb, hv, rf_turned_off] using h

theorem keys_rf_smStep (s : SMState) (e : SMEvent) (k : String)
    (h : k ∈ keysA (smStep s e).rf_on) :
    k ∈ keysA s.rf_on ∨ (∃ v, e = SMEvent.rf k v) := by
  cases e with
  | rf m v =>
    by_cases hv : v = 1
    · by_cases hm : m ∈ s.first_rf_on
      · simp only [smStep, rf_on_cb, hv, if_true, hm, rf_turned_on] at h
        rcases (mem_keysA_setA k m true s.rf_on).mp (by simpa using h) with h' | h'
        · exact Or.inl h'
        · exact Or.inr ⟨v, by rw [h']⟩
      · simp only [smStep, rf_on_cb, hv, hm, rf_turned_on] at h
        left
        simpa using h
    · simp only [smStep, rf_on_cb, hv, rf_turned_off] at h
      rcases (mem_keysA_setA k m false s.rf_on).mp (by simpa [hv] using h) with h' | h'
      · exact Or.inl h'
      · exact Or.inr ⟨v, by rw [h']⟩
  | conn m c =>
    left
    cases c with
    | true =>
      by_cases hm : m ∈ s.has_connected <;>
        simpa [smStep, connection_cb, hm, pv_reconnected] using h
    | false => simpa [smStep, connection_cb, pv_disconnected] using h

theorem connBools_cons_ne_nil (n : String) (e : SMEvent) (es : List SMEvent)
    (h : connBools n es ≠ []) : connBools n (e :: es) ≠ [] := by
  cases e with
  | conn m c =>
    by_cases hm : m = n <;> simp [connBools, List.filterMap_cons, hm] at h ⊢ <;>
      exact h
  | rf m v => simpa [connBools, List.filterMap_cons] using h

theorem rfOns_cons_ne_nil (n : String) (e : SMEvent) (es : List SMEvent)
    (h : rfOns n es ≠ []) : rfOns n (e :: es) ≠ [] := by
  cases e with
  | rf m v =>
    by_cases hm : m = n <;> simp [rfOns, List.filterMap_cons, hm] at h ⊢ <;>
      exact h
  | conn m c => simpa [rfOns, List.filterMap_cons] using h

theorem keys_pv_foldl (es : List SMEvent) :
    ∀ (s : SMState) (k : String), k ∈ keysA ((es.foldl smStep s).pv_connected) →
      k ∈ keysA s.pv_connected ∨ connBools k es ≠ [] := by
  induction es with
  | nil => intro s k h; exact Or.inl h
  | cons e rest ih =>
    intro s k h
    rw [List.foldl_cons] at h
    rcases ih (smStep s e) k h with h' | h'
    · rcases keys_pv_smStep s e k h' with h'' | ⟨c, hc⟩
      · exact Or.inl h''
      · right
        rw [hc]
        simp [connBools, List.filterMap_cons]
    · exact Or.inr (connBools_cons_ne_nil k e rest h')

theorem keys_rf_foldl (es : List SMEvent) :
    ∀ (s : SMState) (k : String), k ∈ keysA ((es.foldl smStep s).rf_on) →
      k ∈ keysA s.rf_on ∨ rfOns k es ≠ [] := by
  induction es with
  | nil => intro s k h; exact Or.inl h
  | cons e rest ih =>
    intro s k h
    rw [List.foldl_cons] at h
    rcases ih (smStep s e) k h with h' | h'
    · rcases keys_rf_smStep s e k h' with h'' | ⟨v, hv⟩
      · exact Or.inl h''
      · right
        rw [hv]
        simp [rfOns, List.filterMap_cons]
    · exact Or.inr (rfOns_cons_ne_nil k e rest h')

theorem nodup_pv_smStep (s : SMState) (e : SMEvent)
    (h : (keysA s.pv_connected).Nodup) : (keysA (smStep s e).pv_connected).Nodup := by
  cases e with
  | conn m c =>
    cases c with
    | true =>
      by_cases hm : m ∈ s.has_connected
      · simpa [smStep, connection_cb, hm, pv_reconnected] using
          nodup_keysA_setA m true s.pv_connected h
      · simpa [smStep, connection_cb, hm] using h
    | false =>
      simpa [smStep, connection_cb, pv_disconnected] using
        nodup_keysA_setA m false s.pv_connected h
  | rf m v =>
    by_cases hv : v = 1
    · by_cases hm : m ∈ s.first_rf_on <;>
        simpa [smStep, rf_on_cb, hv, hm, rf_turned_on] using h
    · simpa [smStep, rf_on_cb, hv, rf_turned_off] using h

theorem nodup_rf_smStep (s : SMState) (e : SMEvent)
    (h : (keysA s.rf_on).Nodup) : (keysA (smStep s e).rf_on).Nodup := by
  cases e with
  | rf m v =>
    by_cases hv : v = 1
    · by_cases hm : m ∈ s.first_rf_on
      · simpa [smStep, rf_on_cb, hv, hm, rf_turned_on] using
          nodup_keysA_setA m true s.rf_on h
      · simpa [smStep, rf_on_cb, hv, hm] using h
    · simpa [smStep, rf_on_cb, hv, rf_turned_off] using
        nodup_keysA_setA m false s.rf_on h
  | conn m c =>
    cases c with
    | true =>
      by_cases hm : m ∈ s.has_connected <;>
        simpa [smStep, connection_cb, hm, pv_reconnected] using h
    | false => simpa [smStep, connection_cb, pv_disconnected] using h

theorem nodup_pv_foldl (es : List SMEvent) :
    ∀ s : SMState, (keysA s.pv_connected).Nodup →
      (keysA ((es.foldl smStep s).pv_connected)).Nodup := by
  induction es with
  | nil => intro s h; exact h
  | cons e rest ih =>
    intro s h
    rw [List.foldl_cons]
    exact ih (smStep s e) (nodup_pv_smStep s e h)

theorem nodup_rf_foldl (es : List SMEvent) :
    ∀ s : SMState, (keysA s.rf_on).Nodup →
      (keysA ((es.foldl smStep s).rf_on)).Nodup := by
  induction es with
  | nil => intro s h; exact h
  | cons e rest ih =>
    intro s h
    rw [List.foldl_cons]
    exact ih (smStep s e) (nodup_rf_smStep s e h)

theorem connBools_ne_nil_mem (n : String) (es : List SMEvent)
    (h : connBools n es ≠ []) : n ∈ eventNames es := by
  induction es with
  | nil => simp [connBools] at h
  | cons e rest ih =>
    cases e with
    | conn m c =>
      by_cases hm : m = n
      · simp [eventNames, hm]
      · simp only [connBools, List.filterMap_cons, hm, if_false] at h
        simp only [eventNames, List.map_cons, List.mem_cons]
        exact Or.inr (ih (by simpa [connBools] using h))
    | rf m v =>
      simp only [connBools, List.filterMap_cons] at h
      simp only [eventNames, List.map_cons, List.mem_cons]
      exact Or.inr (ih (by simpa [connBools] using h))

theorem rfOns_ne_nil_mem (n : String) (es : List SMEvent)
    (h : rfOns n es ≠ []) : n ∈ eventNames es := by
  induction es with
  | nil => simp [rfOns] at h
  | cons e rest ih =>
    cases e with
    | rf m v =>
      by_cases hm : m = n
      · simp [eventNames, hm]
      · simp only [rfOns, List.filterMap_cons, hm, if_false] at h
        simp only [eventNames, List.map_cons, List.mem_cons]
        exact Or.inr (ih (by simpa [rfOns] using h))
    | conn m c =>
      simp only [rfOns, List.filterMap_cons] at h
      simp only [eventNames, List.map_cons, List.mem_cons]
      exact Or.inr (ih (by simpa [rfOns] using h))

/-- The hypothesis of claim C7, read off the trace: for every signal with
connection events, the last one reports connected; for every cavity with RF
events, the last one reports RF on. -/
def lastEventsGood (es : List SMEvent) : Prop :=
  (∀ n ∈ eventNames es, connBools n es ≠ [] → (connBools n es).getLast? = some true) ∧
    (∀ n ∈ eventNames es, rfOns n es ≠ [] → (rfOns n es).getLast? = some true)

/-- The amended hypothesis: additionally, the final connected (resp. RF-on)
event must not be the signal's first connected (resp. first RF-on) event —
an earlier good event for the same signal must exist in the trace. -/
def lastEventsGoodSeen (es : List SMEvent) : Prop :=
  (∀ n ∈ eventNames es, connBools n es ≠ [] →
      (connBools n es).getLast? = some true ∧ true ∈ (connBools n es).dropLast) ∧
    (∀ n ∈ eventNames es, rfOns n es ≠ [] →
      (rfOns n es).getLast? = some true ∧ true ∈ (rfOns n es).dropLast)

instance (es : List SMEvent) : Decidable (lastEventsGood es) := by
  unfold lastEventsGood
  infer_instance

instance (es : List SMEvent) : Decidable (lastEventsGoodSeen es) := by
  unfold lastEventsGoodSeen
  infer_instance

/-- Helper: `daq_good` from emptiness of the four violation categories. -/
theorem daq_good_of_clean (s : SMState)
    (hpv : ∀ p ∈ s.pv_connected, p.2 = true)
    (hrf : ∀ p ∈ s.rf_on, p.2 = true)
    (hhv : ∀ p ∈ s.hv_bad, p.2 = false)
    (hth : s.threshold_exceeded = []) : daq_good s = true := by
  simp only [daq_good, get_rf_off_count, get_disconnected_pv_count, get_hv_bad_count,
    get_threshold_exceeded_count, Bool.and_eq_true, beq_iff_eq, List.length_eq_zero,
    List.filter_eq_nil_iff]
  refine ⟨⟨⟨?_, ?_⟩, ?_⟩, hth⟩
  · intro p hp; simp [hrf p hp]
  · intro p hp; simp [hpv p hp]
  · intro p hp; simp [hhv p hp]

/-- C7 counterexample: a trace whose only connection events for signal `X`
are a disconnect followed by a reconnect.  The last connection event reports
connected, yet the reconnect is X's first connected event, so
`connection_cb` only appends X to `has_connected` and never calls
`pv_reconnected`: the recorded disconnection sticks and `daq_good` stays
false, so `check_state` raises. -/
def c7events : List SMEvent := [SMEvent.conn "X" false, SMEvent.conn "X" true]

/-- C7 is false as stated: `c7events` satisfies the claim's hypothesis (the
last connection event for every signal reports connected, and there are no
RF events) but leaves the safety predicate false and `check_state` raising. -/
theorem C7_counterexample :
    lastEventsGood c7events ∧ daq_good (smRun c7events) = false ∧
      (check_state (smRun c7events) false false).2 = Except.error PyErr.runtimeError := by
  refine ⟨by decide, by decide, by decide⟩

/-- C7 (amended): for every finite interleaving of connection and RF callback
events in which, for each signal, the last connection event reports connected
and is not that signal's first connected event, and, for each cavity, the
last RF event reports on and is not that cavity's first RF-on event, the
safety predicate is true afterwards and a subsequent `check_state` does not
raise. -/
theorem C7_amended_no_stuck_violation (es : List SMEvent)
    (h : lastEventsGoodSeen es) :
    daq_good (smRun es) = true ∧
      ∀ ui uy : Bool, check_state (smRun es) ui uy = ([], Except.ok ()) := by
  obtain ⟨hc, hr⟩ := h
  have hpv : ∀ p ∈ (smRun es).pv_connected, p.2 = true := by
    rintro ⟨k, v⟩ hmem
    have hk : k ∈ keysA (smRun es).pv_connected :=
      List.mem_map_of_mem Prod.fst hmem
    have hkey := keys_pv_foldl es SMState.init k hk
    rcases hkey with h' | h'
    · simp [SMState.init, keysA] at h'
    · have hn : k ∈ eventNames es := connBools_ne_nil_mem k es h'
      obtain ⟨hlast, hdrop⟩ := hc k hn h'
      have hfold := flagStep_foldl_some_true (connBools k es) false none
        (Or.inr hdrop) hlast
      have hproj := projConn_foldl es SMState.init k
      have hinit : projConn k SMState.init = (false, none) := by
        simp [projConn, SMState.init, lookupA]
      rw [hinit] at hproj
      have hlook : lookupA k (smRun es).pv_connected = some true := by
        have : (projConn k (smRun es)).2 = some true := by
          rw [show smRun es = es.foldl smStep SMState.init from rfl, hproj]
          exact hfold
        simpa [projConn] using this
      have hnd : (keysA (smRun es).pv_connected).Nodup :=
        nodup_pv_foldl es SMState.init (by simp [SMState.init, keysA])
      have hl2 := lookupA_of_mem_nodup k v (smRun es).pv_connected hnd hmem
      rw [hl2] at hlook
      exact Option.some.inj hlook
  have hrf : ∀ p ∈ (smRun es).rf_on, p.2 = true := by
    rintro ⟨k, v⟩ hmem
    have hk : k ∈ keysA (smRun es).rf_on :=
      List.mem_map_of_mem Prod.fst hmem
    have hkey := keys_rf_foldl es SMState.init k hk
    rcases hkey with h' | h'
    · simp [SMState.init, keysA] at h'
    · have hn : k ∈ eventNames es := rfOns_ne_nil_mem k es h'
      obtain ⟨hlast, hdrop⟩ := hr k hn h'
      have hfold := flagStep_foldl_some_true (rfOns k es) false none
        (Or.inr hdrop) hlast
      have hproj := projRf_foldl es SMState.init k
      have hinit : projRf k SMState.init = (false, none) := by
        simp [projRf, SMState.init, lookupA]
      rw [hinit] at hproj
      have hlook : lookupA k (smRun es).rf_on = some true := by
        have : (projRf k (smRun es)).2 = some true := by
          rw [show smRun es = es.foldl smStep SMState.init from rfl, hproj]
          exact hfold
        simpa [projRf] using this
      have hnd : (keysA (smRun es).rf_on).Nodup :=
        nodup_rf_foldl es SMState.init (by simp [SMState.init, keysA])
      have hl2 := lookupA_of_mem_nodup k v (smRun es).rf_on hnd hmem
      rw [hl2] at hlook
      exact Option.some.inj hlook
  have hhv : (smRun es).hv_bad = [] := foldl_smStep_hv_bad es SMState.init
  have hth : (smRun es).threshold_exceeded = [] := foldl_smStep_threshold es SMState.init
  have hgood : daq_good (smRun es) = true :=
    daq_good_of_clean (smRun es) hpv hrf (by rw [hhv]; intro p hp; simp at hp) hth
  refine ⟨hgood, ?_⟩
  intro ui uy
  simp [check_state, hgood]

/-- Witness for the amended C7 at a concrete trace: signal X connects, drops,
then reconnects; RF for cavity R1 reports off then on twice. -/
def c7goodEvents : List SMEvent :=
  [SMEvent.conn "X" true, SMEvent.rf "R1" 1, SMEvent.conn "X" false,
    SMEvent.rf "R1" 0, SMEvent.conn "X" true, SMEvent.rf "R1" 1]

theorem C7_amended_witness :
    lastEventsGoodSeen c7goodEvents ∧ daq_good (smRun c7goodEvents) = true :=
  ⟨by decide, (C7_amended_no_stuck_violation c7goodEvents (by decide)).1⟩

/-! ### Cavity gradient state machine (src/src/fe_daq/cavity.py)

One cavity's mutable EPICS-facing state, plus an environment of external
signal readings.  Polling loops (tuner wait, ramp wait, gradient walk) take
explicit fuel; their per-round outcome (did the condition recover before the
round's timeout) is collapsed into a constant environment flag, and the
operator's answer to any prompt is likewise a constant flag.  A caput to
GSET is assumed to read back as the written value. -/

structure CavState where
  gset : ℚ
  gset_init : ℚ
  gset_min : ℚ
  gset_max : ℚ
  bypassed : Bool
  bypassed_eff : Bool
  tuner_bad : Bool
  gmes_step_size : ℚ
  fcc_firmware_version : Int
deriving DecidableEq, Repr

structure Env where
  autoheat : ℚ
  rf_on : Bool
  ramping : Bool
  tuning_required0 : Bool
  tuning_required : Bool
  tuner_recovers : Bool
  user_continue : Bool
  jt_wait : Bool
  jt_recovers : Bool
  lp_wait : Bool
  lp_recovers : Bool
  heater_wait : Bool
  heater_recovers : Bool
  ramp_finishes : Bool
  monitor_ok : Bool
deriving DecidableEq, Repr

/-- Sequencing of trace-collecting fallible computations. -/
def effBind {α β : Type} (x : List Effect × Except PyErr α)
    (f : α → List Effect × Except PyErr β) : List Effect × Except PyErr β :=
  match x with
  | (tr, Except.error e) => (tr, Except.error e)
  | (tr, Except.ok a) =>
    match f a with
    | (tr2, r) => (tr ++ tr2, r)

/-- The timeout loop of `Cavity.wait_for_tuning` (cavity.py lines 170-187).
On each timeout the source calls `input()` BEFORE consulting `interactive`
(line 174), so a prompt is issued either way; with `interactive` it restarts
the window on a `y` answer, otherwise it raises. -/
def waitTuneLoop (env : Env) (interactive : Bool) : Nat → List Effect × Except PyErr Unit
  | 0 => ([], Except.error PyErr.fuelOut)
  | Nat.succ k =>
    if !env.tuning_required then ([], Except.ok ())
    else if env.tuner_recovers then ([], Except.ok ())
    else
      if interactive then
        if env.user_continue then
          match waitTuneLoop env interactive k with
          | (tr, r) => (Effect.prompt :: tr, r)
        else ([Effect.prompt], Except.error PyErr.runtimeError)
      else ([Effect.prompt], Except.error PyErr.runtimeError)

/-- `Cavity.wait_for_tuning` (cavity.py lines 161-187): no waiting when no
tuning is required at margin 0. -/
def wait_for_tuning (env : Env) (interactive : Bool) (fuel : Nat) :
    List Effect × Except PyErr Unit :=
  if !env.tuning_required0 then ([], Except.ok ())
  else waitTuneLoop env interactive fuel

/-- `Cavity._wait_for_jt` (cavity.py lines 365-384): waits silently, raising
on timeout; never prompts. -/
def wait_for_jt (env : Env) : List Effect × Except PyErr Unit :=
  if env.jt_wait then
    if env.jt_recovers then ([], Except.ok ())
    else ([], Except.error PyErr.runtimeError)
  else ([], Except.ok ())

/-- `Cavity._wait_for_linac_pressure` (cavity.py lines 386-410). -/
def wait_for_linac_pressure (env : Env) : List Effect × Except PyErr Unit :=
  if env.lp_wait then
    if env.lp_recovers then ([], Except.ok ())
    else ([], Except.error PyErr.runtimeError)
  else ([], Except.ok ())

/-- `Cavity._wait_for_heater_margins` (cavity.py lines 412-429). -/
def wait_for_heater_margins (env : Env) : List Effect × Except PyErr Unit :=
  if env.heater_wait then
    if env.heater_recovers then ([], Except.ok ())
    else ([], Except.error PyErr.runtimeError)
  else ([], Except.ok ())

/-- `Cavity._do_ramp_checks` (cavity.py lines 463-467).  Note: the source
calls `self.wait_for_tuning(tune_timeout=tune_timeout)` without forwarding
any `interactive` flag, so `wait_for_tuning` always runs with its default
`interactive = True`, whatever the caller's mode. -/
def do_ramp_checks (env : Env) (fuel : Nat) : List Effect × Except PyErr Unit :=
  effBind (wait_for_tuning env true fuel) (fun _ =>
    effBind (wait_for_jt env) (fun _ =>
      effBind (wait_for_linac_pressure env) (fun _ =>
        wait_for_heater_margins env)))

/-- `LLRF2Cavity.is_gradient_ramping` (cavity.py lines 715-729): raises when
RF is off, else reads the status bit. -/
def is_gradient_ramping (env : Env) : Except PyErr Bool :=
  if !env.rf_on then Except.error PyErr.runtimeError else Except.ok env.ramping

/-- The ramp-completion wait of `Cavity._set_gradient` (cavity.py lines
340-357): here the prompt is correctly guarded by `interactive`; the
non-interactive path raises without prompting. -/
def rampWaitLoop (env : Env) (interactive : Bool) : Nat → List Effect × Except PyErr Unit
  | 0 => ([], Except.error PyErr.fuelOut)
  | Nat.succ k =>
    if env.ramp_finishes then ([], Except.ok ())
    else
      if interactive then
        if env.user_continue then
          match rampWaitLoop env interactive k with
          | (tr, r) => (Effect.prompt :: tr, r)
        else ([Effect.prompt], Except.error PyErr.runtimeError)
      else ([], Except.error PyErr.runtimeError)

/-- `Cavity._set_gradient` (cavity.py lines 311-363): caput the new GSET,
optionally watch for a ramp and wait it out, then run
`StateMonitor.monitor(settle_time, user_input=False)`, which raises on a bad
state without prompting. -/
def internal_set_gradient (st : CavState) (env : Env) (gset : ℚ)
    (wait_for_ramp interactive : Bool) (fuel : Nat) :
    List Effect × Except PyErr CavState :=
  let st2 : CavState := { st with gset := gset }
  let monitorPart : List Effect × Except PyErr CavState :=
    if env.monitor_ok then ([], Except.ok st2)
    else ([], Except.error PyErr.runtimeError)
  let afterPut : List Effect × Except PyErr CavState :=
    if wait_for_ramp then
      match is_gradient_ramping env with
      | Except.error e => ([], Except.error e)
      | Except.ok started =>
        if started then
          effBind (rampWaitLoop env interactive fuel) (fun _ => monitorPart)
        else monitorPart
    else monitorPart
  match afterPut with
  | (tr, r) => (Effect.putGset gset :: tr, r)

/-- `Cavity._validate_requested_gradient` (cavity.py lines 275-309), checks
in source order: autoheat enabled, tuner good, not effectively bypassed (for
non-zero targets), at or above the operational minimum (for non-zero
targets), at or below the operational maximum, and within 1.001 MV/m of the
current setpoint unless forced. -/
def validate_requested_gradient (st : CavState) (env : Env) (gset : ℚ)
    (force : Bool) : Except PyErr Unit :=
  if env.autoheat ≠ 1 then Except.error PyErr.runtimeError
  else if st.tuner_bad then Except.error PyErr.runtimeError
  else if gset ≠ 0 ∧ st.bypassed_eff then Except.error PyErr.valueError
  else if gset ≠ 0 ∧ gset < st.gset_min then Except.error PyErr.valueError
  else if st.gset_max < gset then Except.error PyErr.valueError
  else if ¬force ∧ 1001 / 1000 < |gset - st.gset| then Except.error PyErr.valueError
  else Except.ok ()

/-- The stepping loop of `Cavity._do_gradient_ramping` (cavity.py lines
447-461): while more than one `gmes_step_size` from the target, run the ramp
checks and take one small step with no settle time; the final step uses the
caller's settle time.  `dir` is the step direction computed once up front. -/
def rampStepLoop (env : Env) (gset : ℚ) (dir : ℚ) (wait_for_ramp interactive : Bool)
    (innerFuel : Nat) : Nat → CavState → List Effect × Except PyErr CavState
  | 0, _ => ([], Except.error PyErr.fuelOut)
  | Nat.succ k, st =>
    if st.gmes_step_size < |gset - st.gset| then
      effBind (do_ramp_checks env innerFuel) (fun _ =>
        effBind (internal_set_gradient st env (st.gset + dir * st.gmes_step_size)
            wait_for_ramp interactive innerFuel) (fun st2 =>
          rampStepLoop env gset dir wait_for_ramp interactive innerFuel k st2))
    else
      effBind (do_ramp_checks env innerFuel) (fun _ =>
        internal_set_gradient st env gset wait_for_ramp interactive innerFuel)

/-- `Cavity._do_gradient_ramping` (cavity.py lines 431-461). -/
def do_gradient_ramping (st : CavState) (env : Env) (gset : ℚ)
    (wait_for_ramp interactive : Bool) (fuel : Nat) :
    List Effect × Except PyErr CavState :=
  let dir : ℚ := if st.gset ≤ gset then 1 else -1
  rampStepLoop env gset dir wait_for_ramp interactive fuel fuel st

/-- The rounding-error snap at the top of `LLRF2Cavity.set_gradient`
(cavity.py lines 754-758): a requested value above `gset_max` but within
0.0001 of it is treated as a request for `gset_max` itself. -/
def snap_to_gset_max (st : CavState) (gset : ℚ) : ℚ :=
  if st.gset_max < gset ∧ gset - 1 / 10000 < st.gset_max then st.gset_max else gset

/-- `LLRF2Cavity.set_gradient` (cavity.py lines 731-778): the snap runs
before validation; validation errors propagate before any caput; firmware
newer than 2019 forces `wait_for_ramp` off; then the gradient is ramped in
software. -/
def set_gradient (st : CavState) (env : Env) (gset : ℚ)
    (wait_for_ramp force interactive : Bool) (fuel : Nat) :
    List Effect × Except PyErr CavState :=
  match validate_requested_gradient st env (snap_to_gset_max st gset) force with
  | Except.error e => ([], Except.error e)
  | Except.ok _ =>
    let wfr : Bool := if 2019 < st.fcc_firmware_version then false else wait_for_ramp
    do_gradient_ramping st env (snap_to_gset_max st gset) wfr interactive fuel

/-- The walking loop of `Cavity.walk_gradient` (cavity.py lines 264-273):
while more than `step_size` from the target, call `set_gradient` for one
bounded step, then finish with one call at the target. -/
def walkLoop (env : Env) (gset step_size : ℚ) (dir : ℚ)
    (wait_for_ramp force interactive : Bool) (innerFuel : Nat) :
    Nat → CavState → List Effect × Except PyErr CavState
  | 0, _ => ([], Except.error PyErr.fuelOut)
  | Nat.succ k, st =>
    if step_size < |gset - st.gset| then
      effBind (set_gradient st env (st.gset + dir * step_size)
          wait_for_ramp force interactive innerFuel) (fun st2 =>
        walkLoop env gset step_size dir wait_for_ramp force interactive innerFuel k st2)
    else set_gradient st env gset wait_for_ramp force interactive innerFuel

/-- `Cavity.walk_gradient` (cavity.py lines 232-273): determine the step
direction, reject targets above `gset_max`, then walk in bounded steps. -/
def walk_gradient (st : CavState) (env : Env) (gset step_size : ℚ)
    (wait_for_ramp force interactive : Bool) (fuel : Nat) :
    List Effect × Except PyErr CavState :=
  let dir : ℚ := if st.gset ≤ gset then 1 else -1
  if st.gset_max < gset then ([], Except.error PyErr.valueError)
  else walkLoop env gset step_size dir wait_for_ramp force interactive fuel fuel st

/-- `Cavity.restore_gset` (cavity.py lines 492-494): walk back to the
construction-time `gset_init` only when the current value differs from it. -/
def restore_gset (st : CavState) (env : Env) (step_size : ℚ)
    (wait_for_ramp force interactive : Bool) (fuel : Nat) :
    List Effect × Except PyErr CavState :=
  if st.gset ≠ st.gset_init then
    walk_gradient st env st.gset_init step_size wait_for_ramp force interactive fuel
  else ([], Except.ok st)

/-- `update_cavity_gset` (cavity.py lines 986-1000): calls `set_gradient`,
returning true on success and false on any error; `UserScanAbort` is
re-raised. -/
def update_cavity_gset (st : CavState) (env : Env) (gset : ℚ)
    (force interactive : Bool) (fuel : Nat) : List Effect × Except PyErr Bool :=
  match set_gradient st env gset true force interactive fuel with
  | (tr, Except.ok _) => (tr, Except.ok true)
  | (tr, Except.error PyErr.userScanAbort) => (tr, Except.error PyErr.userScanAbort)
  | (tr, Except.error _) => (tr, Except.ok false)

/-- The per-cavity worker invocation of `update_cavity_gsets_parallel`
(cavity.py lines 1009-1016): the orchestrator sets `interactive = False` and
submits `update_cavity_gset` with it for each cavity of the batch. -/
def parallel_worker_update (st : CavState) (env : Env) (gset : ℚ)
    (force : Bool) (fuel : Nat) : List Effect × Except PyErr Bool :=
  update_cavity_gset st env gset force false fuel

/-! ### Claims C2, C3, C8, C9 -/

/-- A healthy external environment: autoheat on, RF on, no ramp in progress,
tuner happy, cryo recovered, state monitor content. -/
def benignEnv : Env :=
  { autoheat := 1, rf_on := true, ramping := false, tuning_required0 := false,
    tuning_required := false, tuner_recovers := true, user_continue := false,
    jt_wait := false, jt_recovers := true, lp_wait := false, lp_recovers := true,
    heater_wait := false, heater_recovers := true, ramp_finishes := true,
    monitor_ok := true }

/-- A healthy LLRF 2.0 cavity sitting at its ceiling of 10 MV/m. -/
def c2cav : CavState :=
  { gset := 10, gset_init := 10, gset_min := 5, gset_max := 10, bypassed := false,
    bypassed_eff := false, tuner_bad := false, gmes_step_size := 1 / 10,
    fcc_firmware_version := 2022 }

/-- C2 counterexample: the non-zero target 10.00005 lies strictly above
`gset_max = 10`, the cavity is not bypassed, yet `set_gradient` does not
raise: the pre-validation snap rewrites the target to `gset_max` and a
setpoint write is issued. -/
theorem C2_counterexample :
    ((10 : ℚ) < 200001 / 20000 ∧ (200001 / 20000 : ℚ) ≠ 0 ∧
        c2cav.bypassed_eff = false ∧ c2cav.gset_max = 10 ∧ c2cav.gset_min = 5) ∧
      set_gradient c2cav benignEnv (200001 / 20000) true false true 3 =
        ([Effect.putGset 10], Except.ok c2cav) := by
  constructor
  · refine ⟨by norm_num, by norm_num, rfl, rfl, rfl⟩
  · norm_num [set_gradient, snap_to_gset_max, validate_requested_gradient,
      do_gradient_ramping, rampStepLoop, do_ramp_checks, wait_for_tuning,
      wait_for_jt, wait_for_linac_pressure, wait_for_heater_margins,
      internal_set_gradient, is_gradient_ramping, effBind, benignEnv, c2cav, lt_abs]

/-- C2 (amended): for a non-bypassed device and every non-zero target outside
`[gset_min, gset_max]` that is not in the snap window `(gset_max,
gset_max + 0.0001)`, `set_gradient` raises and issues no setpoint write. -/
theorem C2_amended_out_of_range_rejected (st : CavState) (env : Env) (g : ℚ)
    (wfr force interactive : Bool) (fuel : Nat)
    (hbyp : st.bypassed_eff = false) (hg0 : g ≠ 0)
    (hout : g < st.gset_min ∨ st.gset_max < g)
    (hsnap : ¬(st.gset_max < g ∧ g < st.gset_max + 1 / 10000)) :
    (set_gradient st env g wfr force interactive fuel).1 = [] ∧
      ((set_gradient st env g wfr force interactive fuel).2 =
          Except.error PyErr.valueError ∨
        (set_gradient st env g wfr force interactive fuel).2 =
          Except.error PyErr.runtimeError) := by
  have hg2 : snap_to_gset_max st g = g := by
    unfold snap_to_gset_max
    rw [if_neg]
    intro hc
    exact hsnap ⟨hc.1, by linarith [hc.2]⟩
  have hval : validate_requested_gradient st env g force = Except.error PyErr.valueError ∨
      validate_requested_gradient st env g force = Except.error PyErr.runtimeError := by
    unfold validate_requested_gradient
    split_ifs with h1 h2 h3 h4 h5 h6
    · right; rfl
    · right; rfl
    · left; rfl
    · left; rfl
    · left; rfl
    · left; rfl
    · exfalso
      rcases hout with hlt | hgt
      · exact h4 ⟨hg0, hlt⟩
      · exact h5 hgt
  unfold set_gradient
  rw [hg2]
  rcases hval with hv | hv
  · rw [hv]
    exact ⟨rfl, Or.inl rfl⟩
  · rw [hv]
    exact ⟨rfl, Or.inr rfl⟩

theorem C2_amended_witness :
    (c2cav.bypassed_eff = false ∧ (11 : ℚ) ≠ 0 ∧
        ((11 : ℚ) < c2cav.gset_min ∨ c2cav.gset_max < 11) ∧
        ¬(c2cav.gset_max < (11 : ℚ) ∧ (11 : ℚ) < c2cav.gset_max + 1 / 10000)) ∧
      (set_gradient c2cav benignEnv 11 true false true 3).1 = [] ∧
        ((set_gradient c2cav benignEnv 11 true false true 3).2 =
            Except.error PyErr.valueError ∨
          (set_gradient c2cav benignEnv 11 true false true 3).2 =
            Except.error PyErr.runtimeError) :=
  ⟨⟨rfl, by norm_num, by norm_num [c2cav], by norm_num [c2cav]⟩,
    C2_amended_out_of_range_rejected c2cav benignEnv 11 true false true 3
      rfl (by norm_num) (by norm_num [c2cav]) (by norm_num [c2cav])⟩

/-- The environment of the C3 failing input: the cavity needs tuning and the
tuner does not recover within `tuner_timeout`; the operator, when (wrongly)
prompted, declines to keep waiting. -/
def c3env : Env :=
  { benignEnv with
      tuning_required0 := true,
      tuning_required := true,
      tuner_recovers := false }

/-- C3 failing input: a worker dispatched by `update_cavity_gsets_parallel`
(which fixes `interactive = False`) hits a tuner timeout.  Contrary to the
claim, the worker consults an operator prompt: `_do_ramp_checks` does not
forward `interactive=False` to `wait_for_tuning`, and `wait_for_tuning`
calls `input()` before checking its `interactive` flag.  The resulting
trace contains a prompt, and the error is then swallowed into a `false`
worker result. -/
theorem C3_worker_timeout_prompts :
    parallel_worker_update c2cav c3env 10 true 3 =
      ([Effect.prompt], Except.ok false) := by
  norm_num [parallel_worker_update, update_cavity_gset, set_gradient,
    snap_to_gset_max, validate_requested_gradient, do_gradient_ramping,
    rampStepLoop, do_ramp_checks, wait_for_tuning, waitTuneLoop, wait_for_jt,
    wait_for_linac_pressure, wait_for_heater_margins, internal_set_gradient,
    is_gradient_ramping, effBind, c3env, benignEnv, c2cav, lt_abs]

/-- A healthy LLRF 2.0 cavity currently at 7 MV/m. -/
def c8cav : CavState :=
  { gset := 7, gset_init := 7, gset_min := 5, gset_max := 10, bypassed := false,
    bypassed_eff := false, tuner_bad := false, gmes_step_size := 1 / 10,
    fcc_firmware_version := 2022 }

/-- C8 counterexample: a requested change of exactly 1.001 MV/m (7 → 8.001)
passes validation without `force` — the source rejects only differences
strictly greater than 1.001 (cavity.py line 306) — contradicting the claim
that 1.001 is rejected. -/
theorem C8_counterexample :
    |(8001 / 1000 : ℚ) - c8cav.gset| = 1001 / 1000 ∧
      validate_requested_gradient c8cav benignEnv (8001 / 1000) false =
        Except.ok () := by
  constructor
  · norm_num [c8cav]
  · norm_num [validate_requested_gradient, c8cav, benignEnv, lt_abs]

/-- C8 (amended): in an otherwise valid context, validation without `force`
accepts a request exactly when the change is at most 1.001 MV/m; so 1.000
and 1.001 pass, while anything larger (e.g. 1.002) is rejected. -/
theorem C8_amended_step_threshold (st : CavState) (env : Env) (g : ℚ) (force : Bool)
    (hauto : env.autoheat = 1) (htuner : st.tuner_bad = false)
    (hbyp : st.bypassed_eff = false) (hg0 : g ≠ 0)
    (hmin : st.gset_min ≤ g) (hmax : g ≤ st.gset_max) :
    validate_requested_gradient st env g force = Except.ok () ↔
      (force = true ∨ |g - st.gset| ≤ 1001 / 1000) := by
  unfold validate_requested_gradient
  rw [if_neg (by simp [hauto]), if_neg (by simp [htuner]),
    if_neg (by simp [hbyp]),
    if_neg (fun hc => absurd hc.2 (not_lt.mpr hmin)),
    if_neg (not_lt.mpr hmax)]
  by_cases hf : force
  · simp [hf]
  · by_cases hd : 1001 / 1000 < |g - st.gset|
    · rw [if_pos ⟨by simp [hf], hd⟩]
      simp [hf, not_le.mpr hd]
    · rw [if_neg (fun hc => hd hc.2)]
      simp [hf, not_lt.mp hd]

theorem C8_amended_witness :
    validate_requested_gradient c8cav benignEnv 8 false = Except.ok () ∧
      validate_requested_gradient c8cav benignEnv (8002 / 1000) false =
        Except.error PyErr.valueError := by
  constructor
  · exact (C8_amended_step_threshold c8cav benignEnv 8 false rfl rfl rfl (by norm_num)
      (by norm_num [c8cav]) (by norm_num [c8cav])).mpr (Or.inr (by norm_num [c8cav]))
  · norm_num [validate_requested_gradient, c8cav, benignEnv, lt_abs]

/-- C9: `restore_gset` issues no write when the current setpoint equals the
construction-time `gset_init`, and otherwise is exactly `walk_gradient`
invoked at `gset_init` with the same keyword arguments. -/
theorem C9_restore_gset (st : CavState) (env : Env) (step_size : ℚ)
    (wfr force interactive : Bool) (fuel : Nat) :
    (st.gset = st.gset_init →
        restore_gset st env step_size wfr force interactive fuel = ([], Except.ok st)) ∧
      (st.gset ≠ st.gset_init →
        restore_gset st env step_size wfr force interactive fuel =
          walk_gradient st env st.gset_init step_size wfr force interactive fuel) := by
  constructor
  · intro h
    simp [restore_gset, h]
  · intro h
    simp [restore_gset, h]

/-- A cavity already at its initial value, and one displaced from it. -/
def c9cav : CavState :=
  { gset := 7, gset_init := 7, gset_min := 5, gset_max := 10, bypassed := false,
    bypassed_eff := false, tuner_bad := false, gmes_step_size := 1 / 10,
    fcc_firmware_version := 2022 }

def c9cavMoved : CavState := { c9cav with gset := 8 }

theorem C9_witness :
    (c9cav.gset = c9cav.gset_init ∧
        restore_gset c9cav benignEnv 1 true false true 3 = ([], Except.ok c9cav)) ∧
      (c9cavMoved.gset ≠ c9cavMoved.gset_init ∧
        restore_gset c9cavMoved benignEnv 1 true false true 3 =
          walk_gradient c9cavMoved benignEnv c9cavMoved.gset_init 1 true false true 3) :=
  ⟨⟨by decide, (C9_restore_gset c9cav benignEnv 1 true false true 3).1 (by decide)⟩,
    ⟨by decide, (C9_restore_gset c9cavMoved benignEnv 1 true false true 3).2 (by decide)⟩⟩

/-! ### Parallel batch update orchestration (claim C4)

`update_cavity_gsets_parallel` (cavity.py lines 1003-1042) abstracted over
the per-cavity worker outcomes: the workers are independent, so the
orchestration is determined by each cavity's success bit (`res`) and the
order in which futures complete (`order`, a permutation of the batch). -/

/-- A cavity as the orchestrator sees it: just its name. -/
structure CavId where
  name : String
deriving DecidableEq, Repr

/-- The `del failed[idx]` loop of cavity.py lines 1026-1028: Python deletes
at the running index while iterating, so after a deletion the element that
slides into the deleted slot is skipped unchecked. -/
def pyDelByName (n : String) : List CavId → List CavId
  | [] => []
  | c :: rest =>
    if c.name = n then
      match rest with
      | [] => []
      | d :: rest2 => d :: pyDelByName n rest2
    else c :: pyDelByName n rest

/-- `update_cavity_gsets_parallel` (cavity.py lines 1003-1042): `failed`
starts as the whole batch; as each future completes, a successful cavity is
deleted from `failed` by name; the result is `SUCCESS` precisely when
`failed` ended empty.  `check_ok` is whether the initial
`StateMonitor.check_state()` call survived; on an exception the except
branch leaves `failed` untouched and reports `FAIL`. -/
def update_cavity_gsets_parallel (cavs : List CavId) (res : String → Bool)
    (order : List CavId) (check_ok : Bool) : Status × List CavId :=
  if !check_ok then (Status.FAIL, cavs)
  else
    let failed := order.foldl
      (fun f c => if res c.name then pyDelByName c.name f else f) cavs
    if 0 < failed.length then (Status.FAIL, failed) else (Status.SUCCESS, failed)

theorem pyDelByName_cons (n : String) (c : CavId) (rest : List CavId) :
    pyDelByName n (c :: rest) =
      if c.name = n then
        (match rest with
          | [] => []
          | d :: rest2 => d :: pyDelByName n rest2)
      else c :: pyDelByName n rest := by rw [pyDelByName.eq_def]

theorem pyDelByName_of_not_mem (n : String) (l : List CavId)
    (h : n ∉ l.map CavId.name) : pyDelByName n l = l := by
  induction l with
  | nil => rfl
  | cons c rest ih =>
    simp only [List.map_cons, List.mem_cons, not_or] at h
    rw [pyDelByName_cons, if_neg (fun hc => h.1 hc.symm), ih h.2]

theorem filter_ne_of_not_mem (n : String) (l : List CavId)
    (h : n ∉ l.map CavId.name) :
    l.filter (fun c => decide (c.name ≠ n)) = l := by
  apply List.filter_eq_self.mpr
  intro a ha
  simp only [decide_eq_true_eq]
  intro han
  exact h (han ▸ List.mem_map_of_mem CavId.name ha)

theorem pyDelByName_eq_filter (n : String) (l : List CavId)
    (hnd : (l.map CavId.name).Nodup) :
    pyDelByName n l = l.filter (fun c => decide (c.name ≠ n)) := by
  induction l with
  | nil => rfl
  | cons c rest ih =>
    simp only [List.map_cons, List.nodup_cons] at hnd
    by_cases hc : c.name = n
    · have hrest : n ∉ rest.map CavId.name := by rw [← hc]; exact hnd.1
      have hrhs : List.filter (fun c => decide (c.name ≠ n)) (c :: rest) = rest := by
        rw [List.filter_cons, if_neg (by simp [hc])]
        exact filter_ne_of_not_mem n rest hrest
      rw [hrhs, pyDelByName_cons, if_pos hc]
      cases rest with
      | nil => rfl
      | cons d rest2 =>
        have hrest2 : n ∉ rest2.map CavId.name := fun hmem =>
          hrest (List.mem_cons_of_mem _ hmem)
        show d :: pyDelByName n rest2 = d :: rest2
        rw [pyDelByName_of_not_mem n rest2 hrest2]
    · rw [pyDelByName_cons, if_neg hc, List.filter_cons, if_pos (by simp [hc]), ih hnd.2]

theorem nodup_names_filter (l : List CavId) (p : CavId → Bool)
    (hnd : (l.map CavId.name).Nodup) : ((l.filter p).map CavId.name).Nodup :=
  List.Nodup.sublist (List.Sublist.map CavId.name (List.filter_sublist l)) hnd

theorem foldl_del_eq_filter (res : String → Bool) (order : List CavId) :
    ∀ cavs : List CavId, (cavs.map CavId.name).Nodup →
      order.foldl (fun f c => if res c.name then pyDelByName c.name f else f) cavs =
        cavs.filter
          (fun c => decide (¬(res c.name = true ∧ c.name ∈ order.map CavId.name))) := by
  induction order with
  | nil =>
    intro cavs _
    simp
  | cons o order' ih =>
    intro cavs hnd
    rw [List.foldl_cons]
    by_cases ho : res o.name = true
    · rw [if_pos ho, pyDelByName_eq_filter o.name cavs hnd,
        ih _ (nodup_names_filter cavs _ hnd), List.filter_filter]
      apply List.filter_congr
      intro c _
      by_cases hcn : c.name = o.name
      · simp [hcn, ho]
      · simp [hcn]
    · rw [if_neg ho, ih cavs hnd]
      apply List.filter_congr
      intro c _
      by_cases hcn : c.name = o.name
      · simp [hcn, ho]
      · simp [hcn]

/-- C4: on a batch of cavities with distinct names, with the completion
order any permutation of the batch, the orchestrator's failed set is exactly
the cavities whose worker reported failure, and the status is `SUCCESS`
exactly when that set is empty, else `FAIL`. -/
theorem C4_parallel_failed_set (cavs : List CavId) (res : String → Bool)
    (order : List CavId) (hperm : order.Perm cavs)
    (hnd : (cavs.map CavId.name).Nodup) :
    (update_cavity_gsets_parallel cavs res order true).2 =
        cavs.filter (fun c => !res c.name) ∧
      ((update_cavity_gsets_parallel cavs res order true).1 = Status.SUCCESS ↔
        cavs.filter (fun c => !res c.name) = []) ∧
      (cavs.filter (fun c => !res c.name) ≠ [] →
        (update_cavity_gsets_parallel cavs res order true).1 = Status.FAIL) := by
  have hre : cavs.filter
      (fun c => decide (¬(res c.name = true ∧ c.name ∈ order.map CavId.name))) =
      cavs.filter (fun c => !res c.name) := by
    apply List.filter_congr
    intro c hc
    have hmem : c.name ∈ order.map CavId.name :=
      List.mem_map_of_mem CavId.name (hperm.mem_iff.mpr hc)
    cases hres : res c.name with
    | true => simp [hres, hmem]
    | false => simp [hres]
  have hmain : update_cavity_gsets_parallel cavs res order true =
      (if 0 < (cavs.filter (fun c => !res c.name)).length then Status.FAIL
        else Status.SUCCESS, cavs.filter (fun c => !res c.name)) := by
    unfold update_cavity_gsets_parallel
    rw [foldl_del_eq_filter res order cavs hnd, hre]
    simp only [Bool.not_true]
    rw [if_neg (by simp)]
    split_ifs <;> rfl
  rw [hmain]
  by_cases hnil : cavs.filter (fun c => !res c.name) = []
  · have hlen : ¬0 < (cavs.filter (fun c => !res c.name)).length := by simp [hnil]
    rw [if_neg hlen]
    exact ⟨rfl, ⟨fun _ => hnil, fun _ => rfl⟩, fun hne => absurd hnil hne⟩
  · have hlen : 0 < (cavs.filter (fun c => !res c.name)).length :=
      List.length_pos.mpr hnil
    rw [if_pos hlen]
    refine ⟨rfl, ⟨fun hcon => absurd hcon (by simp), fun hcon => absurd hcon hnil⟩,
      fun _ => rfl⟩

/-- Scenario B: a three-device batch where only device 2's worker fails. -/
def scenBcavs : List CavId := [⟨"1"⟩, ⟨"2"⟩, ⟨"3"⟩]

def scenBres (n : String) : Bool := !(n == "2")

def scenBorder : List CavId := [⟨"3"⟩, ⟨"1"⟩, ⟨"2"⟩]

theorem C4_witness :
    scenBorder.Perm scenBcavs ∧
      (update_cavity_gsets_parallel scenBcavs scenBres scenBorder true).2 =
          scenBcavs.filter (fun c => !scenBres c.name) ∧
        ((update_cavity_gsets_parallel scenBcavs scenBres scenBorder true).1 =
            Status.SUCCESS ↔
          scenBcavs.filter (fun c => !scenBres c.name) = []) ∧
        (scenBcavs.filter (fun c => !scenBres c.name) ≠ [] →
          (update_cavity_gsets_parallel scenBcavs scenBres scenBorder true).1 =
            Status.FAIL) :=
  ⟨by decide,
    C4_parallel_failed_set scenBcavs scenBres scenBorder (by decide) (by decide)⟩

/-- The concrete outcome of scenario B, evaluated: `FAIL` with failed set
exactly device 2. -/
theorem C4_scenarioB_eval :
    update_cavity_gsets_parallel scenBcavs scenBres scenBorder true =
      (Status.FAIL, [⟨"2"⟩]) := by decide

/-! ### Two-phase apply/rollback saga (claim C5)

`collect_data_at_gradients` (cavity.py lines 937-983) abstracted over the
outcomes of its successive `update_cavity_gsets_parallel` calls, the
operator's prompt answers, and the outcome of the fallible
settle-and-collect step.  Each phase call is recorded in a trace of
`Call`s, so "data is collected", "the rollback update ran with the original
gradients" and "a prompt was shown" are observable. -/

/-- The operator's choice on the batch-failure dialog
(`user_alert_update_gsets_fail`, utils.py lines 53-109). -/
inductive UserChoice
  | retry
  | abort
  | skip
  | accept
deriving DecidableEq, Repr

/-- `update_gsets_failure_prompt` (cavity.py lines 1045-1089) combined with
`user_alert_update_gsets_fail` (utils.py lines 53-109): with no failures the
status is `SUCCESS` without prompting; otherwise R maps to `RETRY`, A to
`ABORT`, S (skip) to `FAIL` and K (accept/keep) to `SUCCESS`. -/
def update_gsets_failure_prompt (has_failures : Bool) (choice : UserChoice) : Status :=
  if !has_failures then Status.SUCCESS
  else
    match choice with
    | UserChoice.retry => Status.RETRY
    | UserChoice.abort => Status.ABORT
    | UserChoice.skip => Status.FAIL
    | UserChoice.accept => Status.SUCCESS

/-- One round of the apply loop: the parallel update succeeded, raised
`UserScanAbort` from inside, or failed with the operator then making a
choice. -/
inductive ApplyRound
  | ok
  | raised
  | fail (choice : UserChoice)
deriving DecidableEq, Repr

/-- One round of the rollback loop: success, an inner `UserScanAbort`, or a
failure followed by the operator's retry decision on the
`user_alert_scan_paused` dialog (declining aborts). -/
inductive RollbackRound
  | ok
  | raised
  | fail (retry : Bool)
deriving DecidableEq, Repr

/-- Observable phase calls of the saga. -/
inductive Call
  | update (gsets : List (String × ℚ))
  | collect
  | promptUpdateFail
  | promptRollback
deriving DecidableEq, Repr

/-- The apply loop of cavity.py lines 946-962: repeat the parallel update
until `SUCCESS`; on failure consult the prompt — `ABORT` raises
`UserScanAbort`, `FAIL` (skip) breaks out, `SUCCESS` (accept) leaves the
loop, anything else retries.  Returns `none` when the round script runs
out (a model artifact never hit by the theorems' hypotheses). -/
def applyLoop (new : List (String × ℚ)) :
    List ApplyRound → Option (List Call × Except PyErr Status)
  | [] => none
  | r :: rest =>
    match r with
    | ApplyRound.ok => some ([Call.update new], Except.ok Status.SUCCESS)
    | ApplyRound.raised => some ([Call.update new], Except.error PyErr.userScanAbort)
    | ApplyRound.fail choice =>
      let st := update_gsets_failure_prompt true choice
      let tr := [Call.update new, Call.promptUpdateFail]
      if st = Status.ABORT then some (tr, Except.error PyErr.userScanAbort)
      else if st = Status.FAIL then some (tr, Except.ok Status.FAIL)
      else if st = Status.SUCCESS then some (tr, Except.ok Status.SUCCESS)
      else
        match applyLoop new rest with
        | none => none
        | some (tr2, r2) => some (tr ++ tr2, r2)

/-- The rollback loop of cavity.py lines 970-983: repeat the parallel update
with the original (pre-batch) gradients until `SUCCESS`; on failure ask
whether to retry; declining raises `UserScanAbort`. -/
def rollbackLoop (old : List (String × ℚ)) :
    List RollbackRound → Option (List Call × Except PyErr Unit)
  | [] => none
  | r :: rest =>
    match r with
    | RollbackRound.ok => some ([Call.update old], Except.ok ())
    | RollbackRound.raised => some ([Call.update old], Except.error PyErr.userScanAbort)
    | RollbackRound.fail retryFlag =>
      let tr := [Call.update old, Call.promptRollback]
      if retryFlag then
        match rollbackLoop old rest with
        | none => none
        | some (tr2, r2) => some (tr ++ tr2, r2)
      else some (tr, Except.error PyErr.userScanAbort)

/-- Outcome of the settle-and-collect step: it completes, or it raises. -/
inductive CollectOutcome
  | ok
  | raised
deriving DecidableEq, Repr

/-- `settle_and_collect_data` (cavity.py lines 1092-1120): waits the settle
and averaging periods via `StateMonitor.monitor` — called with its default
`user_input=True`, so on a bad state the operator is consulted and a decline
raises `RuntimeError` (state_monitor.py 343-347) — then writes one row to
the data-log index and flushes.  `Call.collect` stands for that data-log
write; the `raised` outcome is any raise out of this step (the monitor
raising after the operator declines, or the file write failing), in which
case no row is written.  The monitor's own prompt/continue interaction is
folded into the outcome flag. -/
def settle_and_collect_data (out : CollectOutcome) :
    List Call × Except PyErr Unit :=
  match out with
  | CollectOutcome.ok => ([Call.collect], Except.ok ())
  | CollectOutcome.raised => ([], Except.error PyErr.runtimeError)

/-- `collect_data_at_gradients` (cavity.py lines 937-983): run the apply
loop; a `UserScanAbort` unwinds immediately (no rollback).  When the apply
phase ends with declared `SUCCESS`, `settle_and_collect_data` runs next
(lines 964-967); it is not wrapped in any handler, so an exception there
propagates and the rollback loop (lines 970-983) is never entered.  Only
when the collection step returns — or was skipped entirely, after a
non-`SUCCESS` apply status — does the rollback loop run with the original
gradients. -/
def collect_data_at_gradients (new old : List (String × ℚ)) (aS : List ApplyRound)
    (cOut : CollectOutcome) (rS : List RollbackRound) :
    Option (List Call × Except PyErr Unit) :=
  match applyLoop new aS with
  | none => none
  | some (tr, Except.error e) => some (tr, Except.error e)
  | some (tr, Except.ok st) =>
    if st = Status.SUCCESS then
      match settle_and_collect_data cOut with
      | (trc, Except.error e) => some (tr ++ trc, Except.error e)
      | (trc, Except.ok _) =>
        match rollbackLoop old rS with
        | none => none
        | some (tr3, r3) => some (tr ++ trc ++ tr3, r3)
    else
      match rollbackLoop old rS with
      | none => none
      | some (tr3, r3) => some (tr ++ tr3, r3)

theorem applyLoop_no_collect (new : List (String × ℚ)) (aS : List ApplyRound)
    (tr : List Call) (r : Except PyErr Status)
    (h : applyLoop new aS = some (tr, r)) : Call.collect ∉ tr := by
  induction aS generalizing tr r with
  | nil => simp [applyLoop] at h
  | cons a rest ih =>
    cases a with
    | ok =>
      simp only [applyLoop, Option.some.injEq, Prod.mk.injEq] at h
      rw [← h.1]
      simp
    | raised =>
      simp only [applyLoop, Option.some.injEq, Prod.mk.injEq] at h
      rw [← h.1]
      simp
    | fail choice =>
      simp only [applyLoop] at h
      split_ifs at h with h1 h2 h3
      · simp only [Option.some.injEq, Prod.mk.injEq] at h
        rw [← h.1]
        simp
      · simp only [Option.some.injEq, Prod.mk.injEq] at h
        rw [← h.1]
        simp
      · simp only [Option.some.injEq, Prod.mk.injEq] at h
        rw [← h.1]
        simp
      · cases hrec : applyLoop new rest with
        | none => rw [hrec] at h; simp at h
        | some p =>
          obtain ⟨tr2, r2⟩ := p
          rw [hrec] at h
          simp only [Option.some.injEq, Prod.mk.injEq] at h
          rw [← h.1]
          intro hmem
          rcases List.mem_append.mp hmem with hm | hm
          · simp at hm
          · exact ih tr2 r2 hrec hm

theorem applyLoop_error_abort (new : List (String × ℚ)) (aS : List ApplyRound)
    (tr : List Call) (e : PyErr)
    (h : applyLoop new aS = some (tr, Except.error e)) : e = PyErr.userScanAbort := by
  induction aS generalizing tr with
  | nil => simp [applyLoop] at h
  | cons a rest ih =>
    cases a with
    | ok => simp [applyLoop] at h
    | raised =>
      simp only [applyLoop, Option.some.injEq, Prod.mk.injEq] at h
      exact (Except.error.injEq _ _ ▸ h.2).symm
    | fail choice =>
      simp only [applyLoop] at h
      split_ifs at h with h1 h2 h3
      · simp only [Option.some.injEq, Prod.mk.injEq, Except.error.injEq] at h
        exact h.2.symm
      · simp at h
      · simp at h
      · cases hrec : applyLoop new rest with
        | none => rw [hrec] at h; simp at h
        | some p =>
          obtain ⟨tr2, r2⟩ := p
          rw [hrec] at h
          simp only [Option.some.injEq, Prod.mk.injEq] at h
          exact ih tr2 (by rw [hrec, h.2])

theorem rollbackLoop_no_collect (old : List (String × ℚ)) (rS : List RollbackRound)
    (tr : List Call) (r : Except PyErr Unit)
    (h : rollbackLoop old rS = some (tr, r)) : Call.collect ∉ tr := by
  induction rS generalizing tr r with
  | nil => simp [rollbackLoop] at h
  | cons a rest ih =>
    cases a with
    | ok =>
      simp only [rollbackLoop, Option.some.injEq, Prod.mk.injEq] at h
      rw [← h.1]
      simp
    | raised =>
      simp only [rollbackLoop, Option.some.injEq, Prod.mk.injEq] at h
      rw [← h.1]
      simp
    | fail retryFlag =>
      simp only [rollbackLoop] at h
      split_ifs at h with h1
      · cases hrec : rollbackLoop old rest with
        | none => rw [hrec] at h; simp at h
        | some p =>
          obtain ⟨tr2, r2⟩ := p
          rw [hrec] at h
          simp only [Option.some.injEq, Prod.mk.injEq] at h
          rw [← h.1]
          intro hmem
          rcases List.mem_append.mp hmem with hm | hm
          · simp at hm
          · exact ih tr2 r2 hrec hm
      · simp only [Option.some.injEq, Prod.mk.injEq] at h
        rw [← h.1]
        simp

theorem rollbackLoop_calls_old (old : List (String × ℚ)) (rS : List RollbackRound)
    (tr : List Call) (r : Except PyErr Unit)
    (h : rollbackLoop old rS = some (tr, r)) : Call.update old ∈ tr := by
  induction rS generalizing tr r with
  | nil => simp [rollbackLoop] at h
  | cons a rest ih =>
    cases a with
    | ok =>
      simp only [rollbackLoop, Option.some.injEq, Prod.mk.injEq] at h
      rw [← h.1]
      simp
    | raised =>
      simp only [rollbackLoop, Option.some.injEq, Prod.mk.injEq] at h
      rw [← h.1]
      simp
    | fail retryFlag =>
      simp only [rollbackLoop] at h
      split_ifs at h with h1
      · cases hrec : rollbackLoop old rest with
        | none => rw [hrec] at h; simp at h
        | some p =>
          obtain ⟨tr2, r2⟩ := p
          rw [hrec] at h
          simp only [Option.some.injEq, Prod.mk.injEq] at h
          rw [← h.1]
          simp
      · simp only [Option.some.injEq, Prod.mk.injEq] at h
        rw [← h.1]
        simp

/-- Concrete C5 scenario data. -/
def c5new : List (String × ℚ) := [("R1M1", 10)]

def c5old : List (String × ℚ) := [("R1M1", 9)]

def c5applyOk : List ApplyRound := [ApplyRound.ok]

def c5apply : List ApplyRound := [ApplyRound.fail UserChoice.skip]

def c5rollback : List RollbackRound := [RollbackRound.ok]

def c5trace : List Call :=
  [Call.update c5new, Call.promptUpdateFail, Call.update c5old]

/-- C5 counterexample: the apply phase ends with declared `SUCCESS` and no
`UserScanAbort` is raised, yet no rollback update is attempted — the
data-collection step raises (`StateMonitor.monitor` runs with its default
`user_input=True` and raises `RuntimeError` when the state is bad and the
operator declines), and the exception propagates out of
`collect_data_at_gradients` before the rollback loop is entered.  The final
trace holds only the apply-phase update: no `Call.update` with the original
gradients follows, refuting the claim that the rollback phase is attempted
whenever the apply phase ends without raising UserAbort. -/
theorem C5_counterexample :
    applyLoop c5new c5applyOk =
        some ([Call.update c5new], Except.ok Status.SUCCESS) ∧
      collect_data_at_gradients c5new c5old c5applyOk CollectOutcome.raised
          c5rollback =
        some ([Call.update c5new], Except.error PyErr.runtimeError) ∧
      Call.update c5old ∉ [Call.update c5new] :=
  ⟨by decide, by decide, by decide⟩

/-- C5 (amended): whenever the saga completes, data is collected exactly
when the apply phase ended with a declared `SUCCESS` (operator choice
`accept` maps to `SUCCESS`, `skip` maps to `FAIL`) and the collection step
itself returned; after a non-`SUCCESS` apply status (e.g. `skip`) the
rollback update with the original pre-batch gradients is always attempted,
and likewise after a `SUCCESS` whose collection step returned; but when the
collection step raises, the `RuntimeError` propagates with the final trace
being just the apply trace — no rollback; an apply phase that raises
(operator choice `abort`) surfaces the distinguished `UserScanAbort`. -/
theorem C5_two_phase_saga (new old : List (String × ℚ)) (aS : List ApplyRound)
    (cOut : CollectOutcome) (rS : List RollbackRound) (tr : List Call)
    (r : Except PyErr Unit)
    (h : collect_data_at_gradients new old aS cOut rS = some (tr, r)) :
    (Call.collect ∈ tr ↔
        (∃ ta, applyLoop new aS = some (ta, Except.ok Status.SUCCESS)) ∧
          cOut = CollectOutcome.ok) ∧
      ((∃ ta st, applyLoop new aS = some (ta, Except.ok st) ∧
          st ≠ Status.SUCCESS) → Call.update old ∈ tr) ∧
      ((∃ ta, applyLoop new aS = some (ta, Except.ok Status.SUCCESS)) →
        cOut = CollectOutcome.ok → Call.update old ∈ tr) ∧
      (∀ ta, applyLoop new aS = some (ta, Except.ok Status.SUCCESS) →
        cOut = CollectOutcome.raised →
          r = Except.error PyErr.runtimeError ∧ tr = ta) ∧
      ((∃ ta e, applyLoop new aS = some (ta, Except.error e)) →
        r = Except.error PyErr.userScanAbort) ∧
      update_gsets_failure_prompt true UserChoice.accept = Status.SUCCESS ∧
      update_gsets_failure_prompt true UserChoice.skip = Status.FAIL ∧
      update_gsets_failure_prompt true UserChoice.abort = Status.ABORT := by
  unfold collect_data_at_gradients at h
  cases happly : applyLoop new aS with
  | none => rw [happly] at h; simp at h
  | some p =>
    obtain ⟨ta, res⟩ := p
    rw [happly] at h
    cases res with
    | error e =>
      simp only [Option.some.injEq, Prod.mk.injEq] at h
      obtain ⟨htr, hr⟩ := h
      refine ⟨?_, ?_, ?_, ?_, ?_, rfl, rfl, rfl⟩
      · constructor
        · intro hmem
          rw [← htr] at hmem
          exact absurd hmem (applyLoop_no_collect new aS ta _ happly)
        · rintro ⟨⟨ta', heq⟩, _⟩
          simp at heq
      · rintro ⟨ta', st', heq, _⟩
        simp at heq
      · rintro ⟨ta', heq⟩
        simp at heq
      · intro ta' heq
        simp at heq
      · rintro ⟨ta', e', _⟩
        rw [← hr, applyLoop_error_abort new aS ta e happly]
    | ok st =>
      dsimp only at h
      by_cases hst : st = Status.SUCCESS
      · rw [if_pos hst] at h
        cases cOut with
        | ok =>
          simp only [settle_and_collect_data] at h
          cases hroll : rollbackLoop old rS with
          | none => rw [hroll] at h; simp at h
          | some q =>
            obtain ⟨tr3, r3⟩ := q
            rw [hroll] at h
            simp only [Option.some.injEq, Prod.mk.injEq] at h
            obtain ⟨htr, hr⟩ := h
            refine ⟨?_, ?_, ?_, ?_, ?_, rfl, rfl, rfl⟩
            · constructor
              · intro _
                exact ⟨⟨ta, by rw [hst]⟩, rfl⟩
              · intro _
                rw [← htr]
                exact List.mem_append.mpr
                  (Or.inl (List.mem_append.mpr (Or.inr (by simp))))
            · rintro ⟨ta', st', heq, hne⟩
              simp only [Option.some.injEq, Prod.mk.injEq, Except.ok.injEq] at heq
              exact (hne (by rw [← heq.2]; exact hst)).elim
            · intro _ _
              rw [← htr]
              exact List.mem_append.mpr
                (Or.inr (rollbackLoop_calls_old old rS tr3 r3 hroll))
            · intro ta' heq hco
              simp at hco
            · rintro ⟨ta', e', heq⟩
              simp at heq
        | raised =>
          simp only [settle_and_collect_data, List.append_nil,
            Option.some.injEq, Prod.mk.injEq] at h
          obtain ⟨htr, hr⟩ := h
          refine ⟨?_, ?_, ?_, ?_, ?_, rfl, rfl, rfl⟩
          · constructor
            · intro hmem
              rw [← htr] at hmem
              exact absurd hmem (applyLoop_no_collect new aS ta _ happly)
            · rintro ⟨_, hco⟩
              simp at hco
          · rintro ⟨ta', st', heq, hne⟩
            simp only [Option.some.injEq, Prod.mk.injEq, Except.ok.injEq] at heq
            exact (hne (by rw [← heq.2]; exact hst)).elim
          · intro _ hco
            simp at hco
          · intro ta' heq _
            simp only [Option.some.injEq, Prod.mk.injEq, Except.ok.injEq] at heq
            exact ⟨hr.symm, htr.symm.trans heq.1⟩
          · rintro ⟨ta', e', heq⟩
            simp at heq
      · rw [if_neg hst] at h
        cases hroll : rollbackLoop old rS with
        | none => rw [hroll] at h; simp at h
        | some q =>
          obtain ⟨tr3, r3⟩ := q
          rw [hroll] at h
          simp only [Option.some.injEq, Prod.mk.injEq] at h
          obtain ⟨htr, hr⟩ := h
          refine ⟨?_, ?_, ?_, ?_, ?_, rfl, rfl, rfl⟩
          · constructor
            · intro hmem
              rw [← htr] at hmem
              rcases List.mem_append.mp hmem with hm | hm
              · exact absurd hm (applyLoop_no_collect new aS ta _ happly)
              · exact absurd hm (rollbackLoop_no_collect old rS tr3 r3 hroll)
            · rintro ⟨⟨ta', heq⟩, _⟩
              simp only [Option.some.injEq, Prod.mk.injEq, Except.ok.injEq] at heq
              exact (hst heq.2).elim
          · intro _
            rw [← htr]
            exact List.mem_append.mpr
              (Or.inr (rollbackLoop_calls_old old rS tr3 r3 hroll))
          · rintro ⟨ta', heq⟩ _
            simp only [Option.some.injEq, Prod.mk.injEq, Except.ok.injEq] at heq
            exact (hst heq.2).elim
          · intro ta' heq _
            simp only [Option.some.injEq, Prod.mk.injEq, Except.ok.injEq] at heq
            exact (hst heq.2).elim
          · rintro ⟨ta', e', heq⟩
            simp at heq

/-- Witness for the amended C5: one apply round fails and the operator
chooses `skip`; the collection step would have raised, but after `skip` it
never runs, and the rollback update with the original gradients still
runs. -/
theorem C5_witness :
    collect_data_at_gradients c5new c5old c5apply CollectOutcome.raised
        c5rollback = some (c5trace, Except.ok ()) ∧
      ((Call.collect ∈ c5trace ↔
          (∃ ta, applyLoop c5new c5apply = some (ta, Except.ok Status.SUCCESS)) ∧
            CollectOutcome.raised = CollectOutcome.ok) ∧
        ((∃ ta st, applyLoop c5new c5apply = some (ta, Except.ok st) ∧
            st ≠ Status.SUCCESS) → Call.update c5old ∈ c5trace) ∧
        ((∃ ta, applyLoop c5new c5apply = some (ta, Except.ok Status.SUCCESS)) →
          CollectOutcome.raised = CollectOutcome.ok → Call.update c5old ∈ c5trace) ∧
        (∀ ta, applyLoop c5new c5apply = some (ta, Except.ok Status.SUCCESS) →
          CollectOutcome.raised = CollectOutcome.raised →
            Except.ok () = Except.error PyErr.runtimeError ∧ c5trace = ta) ∧
        ((∃ ta e, applyLoop c5new c5apply = some (ta, Except.error e)) →
          Except.ok () = Except.error PyErr.userScanAbort) ∧
        update_gsets_failure_prompt true UserChoice.accept = Status.SUCCESS ∧
        update_gsets_failure_prompt true UserChoice.skip = Status.FAIL ∧
        update_gsets_failure_prompt true UserChoice.abort = Status.ABORT) :=
  ⟨by decide,
    C5_two_phase_saga c5new c5old c5apply CollectOutcome.raised c5rollback
      c5trace (Except.ok ()) (by decide)⟩

/-! ### Zone aggregate heat check (claims C6 and C10)

`Zone.check_percent_heat_change` (linac.py lines 253-276) and
`Cavity.calculate_heat` (cavity.py lines 197-203).  Python raises
`ZeroDivisionError` when dividing by (float) zero, so each division carries
an explicit zero-denominator check. -/

structure CavHeat where
  gset : ℚ
  length : ℚ
  shunt_impedance : ℚ
  Q0 : ℚ
deriving DecidableEq, Repr

/-- `Cavity.calculate_heat` (cavity.py lines 197-203): heat of one cavity at
the proposed gradient, or at the current `gset` when none is proposed;
gradient in MV/m, so the formula scales by `10¹²`. -/
def calculate_heat (c : CavHeat) (g : Option ℚ) : Except PyErr ℚ :=
  let gg := g.getD c.gset
  if c.shunt_impedance * c.Q0 = 0 then Except.error PyErr.zeroDivision
  else Except.ok (gg * gg * c.length * 10 ^ 12 / (c.shunt_impedance * c.Q0))

/-- The accumulation loop of `check_percent_heat_change` (linac.py lines
263-269), pairing each cavity with its proposed gradient. -/
def heatLoop : List (CavHeat × Option ℚ) → ℚ → ℚ → Except PyErr (ℚ × ℚ)
  | [], old, nw => Except.ok (old, nw)
  | (c, g) :: rest, old, nw =>
    match calculate_heat c none with
    | Except.error e => Except.error e
    | Except.ok h1 =>
      match calculate_heat c g with
      | Except.error e => Except.error e
      | Except.ok h2 => heatLoop rest (old + h1) (nw + h2)

/-- `Zone.check_percent_heat_change` (linac.py lines 253-276): exactly eight
gradients are required; the zone's cavities 1..8 are looked up by name (a
missing cavity is a KeyError); then the relative change
`(new - old) / old * 100` is computed — with no guard against a zero old
heat — and an absolute change above `percentage` raises. -/
def check_percent_heat_change (cavs : List CavHeat) (gradients : List (Option ℚ))
    (percentage : ℚ) : Except PyErr (ℚ × ℚ × ℚ) :=
  if gradients.length ≠ 8 then Except.error PyErr.valueError
  else if cavs.length ≠ 8 then Except.error PyErr.keyError
  else
    match heatLoop (cavs.zip gradients) 0 0 with
    | Except.error e => Except.error e
    | Except.ok (old, nw) =>
      if old = 0 then Except.error PyErr.zeroDivision
      else
        if percentage < |(nw - old) / old * 100| then Except.error PyErr.runtimeError
        else Except.ok ((nw - old) / old * 100, nw, old)

/-- The specification formula for one cavity's heat. -/
def heatOf (c : CavHeat) (g : ℚ) : ℚ :=
  g * g * c.length * 10 ^ 12 / (c.shunt_impedance * c.Q0)

/-- Aggregate heat at the current gradients. -/
def zone_old_heat (cavs : List CavHeat) : ℚ :=
  (cavs.map (fun c => heatOf c c.gset)).sum

/-- Aggregate heat with proposed gradients substituted where present. -/
def zone_new_heat (cavs : List CavHeat) (gradients : List (Option ℚ)) : ℚ :=
  ((cavs.zip gradients).map (fun p => heatOf p.1 (p.2.getD p.1.gset))).sum

theorem heatLoop_ok (l : List (CavHeat × Option ℚ))
    (hden : ∀ p ∈ l, p.1.shunt_impedance * p.1.Q0 ≠ 0) :
    ∀ old nw : ℚ, heatLoop l old nw =
      Except.ok (old + (l.map (fun p => heatOf p.1 p.1.gset)).sum,
        nw + (l.map (fun p => heatOf p.1 (p.2.getD p.1.gset))).sum) := by
  induction l with
  | nil =>
    intro old nw
    simp [heatLoop]
  | cons p rest ih =>
    intro old nw
    obtain ⟨c, g⟩ := p
    have hd : c.shunt_impedance * c.Q0 ≠ 0 := hden (c, g) (List.mem_cons_self _ _)
    have hden' : ∀ q ∈ rest, q.1.shunt_impedance * q.1.Q0 ≠ 0 := fun q hq =>
      hden q (List.mem_cons_of_mem _ hq)
    have e1 : calculate_heat c none = Except.ok (heatOf c c.gset) := by
      simp [calculate_heat, heatOf, hd]
    have e2 : calculate_heat c g = Except.ok (heatOf c (g.getD c.gset)) := by
      simp [calculate_heat, heatOf, hd]
    simp only [heatLoop, e1, e2, List.map_cons, List.sum_cons]
    rw [ih hden']
    simp [add_assoc]

/-- C6: on a zone of eight cavities with healthy constants and non-zero
current aggregate heat, `check_percent_heat_change` computes old heat as
`Σ gradient² × length × 10¹² / (shunt_impedance × Q0)` over the current
gradients, the new heat with proposed values substituted where present,
raises exactly when the absolute relative change exceeds `percentage`, and
otherwise returns the relative change and both totals. -/
theorem C6_zone_heat_check (cavs : List CavHeat) (gradients : List (Option ℚ))
    (percentage : ℚ) (hc : cavs.length = 8) (hg : gradients.length = 8)
    (hden : ∀ c ∈ cavs, c.shunt_impedance * c.Q0 ≠ 0)
    (hold : zone_old_heat cavs ≠ 0) :
    check_percent_heat_change cavs gradients percentage =
      (if percentage <
          |(zone_new_heat cavs gradients - zone_old_heat cavs) / zone_old_heat cavs * 100|
        then Except.error PyErr.runtimeError
        else Except.ok
          ((zone_new_heat cavs gradients - zone_old_heat cavs) / zone_old_heat cavs * 100,
            zone_new_heat cavs gradients, zone_old_heat cavs)) := by
  have hden' : ∀ p ∈ cavs.zip gradients, p.1.shunt_impedance * p.1.Q0 ≠ 0 := by
    rintro ⟨a, b⟩ hp
    exact hden a (List.mem_zip hp).1
  have hfst : (cavs.zip gradients).map Prod.fst = cavs :=
    List.map_fst_zip cavs gradients (by rw [hc, hg])
  have hSold : ((cavs.zip gradients).map (fun p => heatOf p.1 p.1.gset)).sum =
      zone_old_heat cavs := by
    conv_rhs => rw [zone_old_heat, ← hfst, List.map_map]
    rfl
  unfold check_percent_heat_change
  rw [if_neg (by simp [hg]), if_neg (by simp [hc]),
    heatLoop_ok (cavs.zip gradients) hden' 0 0]
  simp only [zero_add, hSold]
  rw [if_neg hold]
  rfl

/-- C10: if every cavity in the zone currently sits at gradient zero, the
computed old aggregate heat is zero and the unguarded relative-change
division raises `ZeroDivisionError`, for every list of eight proposed
gradients and every `percentage`. -/
theorem C10_zero_heat_division (cavs : List CavHeat) (gradients : List (Option ℚ))
    (percentage : ℚ) (hc : cavs.length = 8) (hg : gradients.length = 8)
    (hden : ∀ c ∈ cavs, c.shunt_impedance * c.Q0 ≠ 0)
    (hzero : ∀ c ∈ cavs, c.gset = 0) :
    check_percent_heat_change cavs gradients percentage =
      Except.error PyErr.zeroDivision := by
  have hden' : ∀ p ∈ cavs.zip gradients, p.1.shunt_impedance * p.1.Q0 ≠ 0 := by
    rintro ⟨a, b⟩ hp
    exact hden a (List.mem_zip hp).1
  have hSold : ((cavs.zip gradients).map (fun p => heatOf p.1 p.1.gset)).sum = 0 := by
    apply List.sum_eq_zero
    intro x hx
    rcases List.mem_map.mp hx with ⟨⟨a, b⟩, hab, hxeq⟩
    rw [← hxeq]
    have ha : a.gset = 0 := hzero a (List.mem_zip hab).1
    simp [heatOf, ha]
  unfold check_percent_heat_change
  rw [if_neg (by simp [hg]), if_neg (by simp [hc]),
    heatLoop_ok (cavs.zip gradients) hden' 0 0]
  simp only [zero_add, hSold]
  rfl

/-- Scenario D: eight C100 cavities at 10 MV/m, length 0.7 m, shunt
impedance 1241.3, Q0 = 6×10⁹. -/
def scenDcav : CavHeat :=
  { gset := 10, length := 7 / 10, shunt_impedance := 12413 / 10, Q0 := 6000000000 }

def scenDcavs : List CavHeat :=
  [scenDcav, scenDcav, scenDcav, scenDcav, scenDcav, scenDcav, scenDcav, scenDcav]

def scenDgrads : List (Option ℚ) :=
  [some 0, some 0, some 0, some 0, some 0, some 0, some 0, some 0]

theorem C6_witness :
    ((∀ c ∈ scenDcavs, c.shunt_impedance * c.Q0 ≠ 0) ∧
        zone_old_heat scenDcavs ≠ 0 ∧ zone_old_heat scenDcavs = 2800000 / 37239 ∧
        zone_new_heat scenDcavs scenDgrads = 0) ∧
      check_percent_heat_change scenDcavs scenDgrads 99 =
          Except.error PyErr.runtimeError ∧
        check_percent_heat_change scenDcavs scenDgrads 101 =
          Except.ok (-100, 0, 2800000 / 37239) := by
  have hden : ∀ c ∈ scenDcavs, c.shunt_impedance * c.Q0 ≠ 0 := by
    intro c hc
    fin_cases hc <;> norm_num [scenDcav]
  have holdval : zone_old_heat scenDcavs = 2800000 / 37239 := by
    norm_num [zone_old_heat, scenDcavs, scenDcav, heatOf]
  have hnewval : zone_new_heat scenDcavs scenDgrads = 0 := by
    norm_num [zone_new_heat, scenDcavs, scenDcav, scenDgrads, heatOf, List.zip]
  have hold : zone_old_heat scenDcavs ≠ 0 := by
    rw [holdval]
    norm_num
  refine ⟨⟨hden, hold, holdval, hnewval⟩, ?_, ?_⟩
  · rw [C6_zone_heat_check scenDcavs scenDgrads 99 rfl rfl hden hold]
    rw [holdval, hnewval]
    norm_num
  · rw [C6_zone_heat_check scenDcavs scenDgrads 101 rfl rfl hden hold]
    rw [holdval, hnewval]
    norm_num

/-- Eight cavities all at gradient zero. -/
def c10cav : CavHeat :=
  { gset := 0, length := 7 / 10, shunt_impedance := 12413 / 10, Q0 := 6000000000 }

def c10cavs : List CavHeat :=
  [c10cav, c10cav, c10cav, c10cav, c10cav, c10cav, c10cav, c10cav]

def c10grads : List (Option ℚ) :=
  [some 5, some 5, some 5, some 5, some 5, some 5, some 5, some 5]

theorem C10_witness :
    ((∀ c ∈ c10cavs, c.shunt_impedance * c.Q0 ≠ 0) ∧ (∀ c ∈ c10cavs, c.gset = 0)) ∧
      check_percent_heat_change c10cavs c10grads 10 =
        Except.error PyErr.zeroDivision := by
  have hden : ∀ c ∈ c10cavs, c.shunt_impedance * c.Q0 ≠ 0 := by
    intro c hc
    fin_cases hc <;> norm_num [c10cav]
  have hzero : ∀ c ∈ c10cavs, c.gset = 0 := by
    intro c hc
    fin_cases hc <;> rfl
  exact ⟨⟨hden, hzero⟩,
    C10_zero_heat_division c10cavs c10grads 10 rfl rfl hden hzero⟩

end FeDaq
